import Mathlib

/-!
Verification of dp-census-alpha-ftb-dataset-api: metadata composition, state
validation and the selectors of the store.

A shallow embedding of `models/metadata.go` (`CreateMetaDataDoc`,
`getDistribution`), of the handlers `getMetadata` (`api/metadata.go`),
`getVersions` and `getVersion` (`api/versions.go`), and of the selectors,
existence checks and `GetNextVersion` of `mongo/dataset_store.go`.

Conventions of the embedding:

* a Go pointer field (`*T`) is an `Option T`; `none` is the nil pointer;
* a Go slice field (`[]T`) is a `List T`; a pointer to a slice is an
  `Option (List T)`;
* a Go `int` is an `Int` in the range of 64 bits; where the code computes with
  it, the result wraps (`wrapInt`);
* a run-time fault (nil pointer dereference) is the `Except.error` branch of
  `Except Panic _`;
* a collection of the store is the list of its documents; a `bson.M` selector
  is the list of its key/value pairs, and a document satisfies it when each
  named field, read by its dotted path, has the listed value;
* documents are values: the composed Metadata shares the download objects of
  the version document by pointer in Go, so the clearing of `public` and
  `private` is also visible through the version pointer afterwards; the
  embedding follows the returned document.
-/

set_option linter.dupNamespace false

namespace DatasetAPI

/-! ## Data model (package `models`) -/

/-- Modelled from the spec: the `LinkObject` declaration is absent from the
sources; the fields are the ones the sources read and write (`HRef`, `ID`). -/
structure LinkObject where
  HRef : String := ""
  ID : String := ""
deriving DecidableEq, Repr

/-- Modelled from the spec: the `DownloadObject` declaration is absent from the
sources; a download artifact carries a generic href and a public/private href
pair (spec, section 3), which are the fields `CreateMetaDataDoc` touches. -/
structure DownloadObject where
  HRef : String := ""
  Private : String := ""
  Public : String := ""
deriving DecidableEq, Repr

/-- Modelled from the spec: the `DownloadList` declaration is absent from the
sources; optional CSV, CSVW and XLS artifacts as used by `getDistribution`. -/
structure DownloadList where
  CSV : Option DownloadObject := none
  CSVW : Option DownloadObject := none
  XLS : Option DownloadObject := none
deriving DecidableEq, Repr

/-- Modelled from the spec: `ContactDetails` as built by the upload script. -/
structure ContactDetails where
  Email : String := ""
  Name : String := ""
  Telephone : String := ""
deriving DecidableEq, Repr

/-- Modelled from the spec: `GeneralDetails` (methodologies, publications, QMI,
related datasets); the sources only set `HRef`. -/
structure GeneralDetails where
  HRef : String := ""
deriving DecidableEq, Repr

/-- Modelled from the spec: `Publisher` as built by the upload script. -/
structure Publisher where
  HRef : String := ""
  Name : String := ""
  Type_ : String := ""
deriving DecidableEq, Repr

/-- Modelled from the spec: `Table` as built by the upload script. -/
structure Table where
  HRef : String := ""
  Title : String := ""
deriving DecidableEq, Repr

/-- Modelled from the spec: `TemporalFrequency`; the sources set `Frequency`. -/
structure TemporalFrequency where
  Frequency : String := ""
deriving DecidableEq, Repr

/-- Modelled from the spec: `IsBasedOn` as built by the upload script. -/
structure IsBasedOn where
  ID : String := ""
  Type_ : String := ""
deriving DecidableEq, Repr

/-- Modelled from the spec: `Dimension` as built by the upload script. -/
structure Dimension where
  Category : String := ""
  Description : String := ""
  HRef : String := ""
  ID : String := ""
  Label : String := ""
  Name : String := ""
  NumberOfOptions : Int := 0
deriving DecidableEq, Repr

/-- Modelled from the spec: the `Alert` declaration is absent from the sources
and no source reads its fields; it is copied whole, so one text field stands
for its content. -/
structure Alert where
  Description : String := ""
deriving DecidableEq, Repr

/-- Modelled from the spec: the `LatestChange` declaration is absent from the
sources and no source reads its fields; copied whole. -/
structure LatestChange where
  Description : String := ""
deriving DecidableEq, Repr

/-- Modelled from the spec: the `UsageNote` declaration is absent from the
sources and no source reads its fields; copied whole. -/
structure UsageNote where
  Note : String := ""
deriving DecidableEq, Repr

/-- Modelled from the spec: `DatasetLinks`, the links block of a dataset
variant: the links the upload script sets and `access_rights`, which
`CreateMetaDataDoc` reads. -/
structure DatasetLinks where
  AccessRights : Option LinkObject := none
  Editions : Option LinkObject := none
  LatestVersion : Option LinkObject := none
  Self : Option LinkObject := none
  Taxonomy : Option LinkObject := none
deriving DecidableEq, Repr

/-- Modelled from the spec: `Dataset`, one variant (`current` or `next`) of a
dataset document; the fields are the ones `CreateMetaDataDoc` reads and the
upload script sets. -/
structure Dataset where
  CollectionID : String := ""
  Contacts : List ContactDetails := []
  Description : String := ""
  FTBType : String := ""
  ID : String := ""
  IsBasedOn : Option (List IsBasedOn) := none
  Keywords : List String := []
  License : String := ""
  Links : Option DatasetLinks := none
  Methodologies : List GeneralDetails := []
  NationalStatistic : Option Bool := none
  NextRelease : String := ""
  Publications : List GeneralDetails := []
  Publisher : Option Publisher := none
  QMI : Option GeneralDetails := none
  RelatedDatasets : List GeneralDetails := []
  ReleaseFrequency : String := ""
  State : String := ""
  Tables : Option (List Table) := none
  Theme : String := ""
  Title : String := ""
  Type_ : String := ""
  UnitOfMeasure : String := ""
  URI : String := ""
deriving DecidableEq, Repr

/-- Modelled from the spec: `DatasetUpdate`, the stored dataset document with
its `current` and `next` variants. -/
structure DatasetUpdate where
  ID : String := ""
  Current : Option Dataset := none
  Next : Option Dataset := none
deriving DecidableEq, Repr

/-- Modelled from the spec: `VersionLinks`, the links block of a version, as
built by the upload script and read by `CreateMetaDataDoc`. -/
structure VersionLinks where
  Dataset : Option LinkObject := none
  Dimensions : Option LinkObject := none
  Edition : Option LinkObject := none
  Self : Option LinkObject := none
  Spatial : Option LinkObject := none
  Version : Option LinkObject := none
deriving DecidableEq, Repr

/-- Modelled from the spec: `Version`, a version (instance) document; the
fields are the ones `CreateMetaDataDoc` reads and the upload script sets. -/
structure Version where
  Alerts : Option (List Alert) := none
  CollectionID : String := ""
  Dimensions : List Dimension := []
  Downloads : Option DownloadList := none
  Edition : String := ""
  FTBType : String := ""
  FlexDimensions : Option (List Dimension) := none
  Headers : List String := []
  ID : String := ""
  IsBasedOn : Option (List IsBasedOn) := none
  LatestChanges : Option (List LatestChange) := none
  Links : Option VersionLinks := none
  ReleaseDate : String := ""
  State : String := ""
  Tables : Option (List Table) := none
  Temporal : Option (List TemporalFrequency) := none
  Type_ : String := ""
  UsageNotes : Option (List UsageNote) := none
  Version : Int := 0
deriving DecidableEq, Repr

/-- MetadataLinks represents a link object to list of metadata relevant to a
version (`models/metadata.go`, lines 43-49). -/
structure MetadataLinks where
  AccessRights : Option LinkObject := none
  Self : Option LinkObject := none
  Spatial : Option LinkObject := none
  Version : Option LinkObject := none
  WebsiteVersion : Option LinkObject := none
deriving DecidableEq, Repr

/-- Metadata represents information (metadata) relevant to a version
(`models/metadata.go`, lines 10-40). -/
structure Metadata where
  Alerts : Option (List Alert) := none
  Contacts : List ContactDetails := []
  Description : String := ""
  Dimensions : List Dimension := []
  Distribution : List String := []
  Downloads : Option DownloadList := none
  FTBType : String := ""
  IsBasedOn : Option (List IsBasedOn) := none
  Keywords : List String := []
  LatestChanges : Option (List LatestChange) := none
  License : String := ""
  Links : Option MetadataLinks := none
  Methodologies : List GeneralDetails := []
  NationalStatistic : Option Bool := none
  NextRelease : String := ""
  Publications : List GeneralDetails := []
  Publisher : Option Publisher := none
  QMI : Option GeneralDetails := none
  RelatedDatasets : List GeneralDetails := []
  ReleaseDate : String := ""
  ReleaseFrequency : String := ""
  Tables : Option (List Table) := none
  Temporal : Option (List TemporalFrequency) := none
  Theme : String := ""
  Title : String := ""
  Type_ : String := ""
  UnitOfMeasure : String := ""
  URI : String := ""
  UsageNotes : Option (List UsageNote) := none
deriving DecidableEq, Repr

/-- A run-time fault of the Go program. -/
inductive Panic where
  | nilPointerDereference
  | indexOutOfRange
deriving DecidableEq, Repr

/-! ## `getDistribution` (`models/metadata.go`, lines 132-150) -/

/-- The guard `o != nil && o.HRef != ""` on a download entry. -/
def hasHRef (o : Option DownloadObject) : Bool :=
  match o with
  | none => false
  | some d => d.HRef != ""

/-- The list of formats of a download list: `json` first, then `csv`, `csvw`
and `xls`, each appended when its entry is present with a non-empty href. -/
def getDistribution (downloads : Option DownloadList) : List String :=
  let distribution := ["json"]
  match downloads with
  | none => distribution
  | some downloads =>
    let distribution :=
      if hasHRef downloads.CSV then distribution ++ ["csv"] else distribution
    let distribution :=
      if hasHRef downloads.CSVW then distribution ++ ["csvw"] else distribution
    let distribution :=
      if hasHRef downloads.XLS then distribution ++ ["xls"] else distribution
    distribution

/-! ## URL builder (package `url`) -/

/-- Modelled from the spec: `fmt.Sprintf` restricted to the `%s` verb with
string operands, which is all the URL builder's test uses: every `%s` is
replaced by the next operand, every other character is copied. -/
def Sprintf (format : List Char) (args : List String) : String :=
  match format with
  | [] => ""
  | '%' :: 's' :: rest =>
    match args with
    | [] => "%!s(MISSING)" ++ Sprintf rest []
    | a :: args => a ++ Sprintf rest args
  | c :: rest => String.singleton c ++ Sprintf rest args

/-- Modelled from the spec: `url.Builder`; `url/builder.go` is absent from the
sources, the builder holds the website URL it was created with
(`url/builder_test.go`, line 22). -/
structure Builder where
  websiteURL : String
deriving DecidableEq, Repr

/-- Modelled from the spec: `url.NewBuilder` (`url/builder.go` is absent from
the sources). -/
def NewBuilder (websiteURL : String) : Builder :=
  { websiteURL := websiteURL }

/-- Modelled from the spec: `Builder.BuildWebsiteDatasetVersionURL`
(`url/builder.go` is absent from the sources): the URL-construction
collaborator of section 6, producing the value `url/builder_test.go` (lines
28-29) expects, `fmt.Sprintf("%s/datasets/%s/editions/%s/versions/%s", ...)`. -/
def Builder.BuildWebsiteDatasetVersionURL (builder : Builder)
    (datasetID edition version : String) : String :=
  Sprintf "%s/datasets/%s/editions/%s/versions/%s".toList
    [builder.websiteURL, datasetID, edition, version]

/-- Decimal rendering of a Go `int` (`strconv.Itoa`). -/
def Itoa (i : Int) : String :=
  toString i

/-! ## `CreateMetaDataDoc` (`models/metadata.go`, lines 52-130) -/

/-- The assignments `o.Private = ""` and `o.Public = ""` on a download entry
(lines 116-117, 120-121, 124-125). -/
def clearPrivatePublic (o : DownloadObject) : DownloadObject :=
  { o with Private := "", Public := "" }

/-- CreateMetaDataDoc manages the creation of metadata across dataset and
version docs. The two documents arrive by pointer; reading a field through a
nil pointer faults. `links` is the object `metaDataDoc.Links` points to. -/
def CreateMetaDataDoc (datasetDoc : Option Dataset) (versionDoc : Option Version)
    (urlBuilder : Builder) : Except Panic Metadata :=
  match versionDoc, datasetDoc with
  | none, _ => .error .nilPointerDereference
  | some _, none => .error .nilPointerDereference
  | some versionDoc, some datasetDoc =>
    let metaDataDoc : Metadata :=
      { Alerts := versionDoc.Alerts
        Contacts := datasetDoc.Contacts
        Description := datasetDoc.Description
        Dimensions := versionDoc.Dimensions
        Downloads := versionDoc.Downloads
        FTBType := versionDoc.FTBType
        IsBasedOn := versionDoc.IsBasedOn
        Keywords := datasetDoc.Keywords
        LatestChanges := versionDoc.LatestChanges
        Links := some {}
        License := datasetDoc.License
        Methodologies := datasetDoc.Methodologies
        NationalStatistic := datasetDoc.NationalStatistic
        NextRelease := datasetDoc.NextRelease
        Publications := datasetDoc.Publications
        Publisher := datasetDoc.Publisher
        QMI := datasetDoc.QMI
        RelatedDatasets := datasetDoc.RelatedDatasets
        ReleaseDate := versionDoc.ReleaseDate
        ReleaseFrequency := datasetDoc.ReleaseFrequency
        Tables := versionDoc.Tables
        Temporal := versionDoc.Temporal
        Theme := datasetDoc.Theme
        Title := datasetDoc.Title
        Type_ := versionDoc.Type_
        UnitOfMeasure := datasetDoc.UnitOfMeasure
        URI := datasetDoc.URI
        UsageNotes := versionDoc.UsageNotes }
    let links : MetadataLinks := {}
    -- Add relevant metadata links from dataset document
    let links : MetadataLinks :=
      match datasetDoc.Links with
      | none => links
      | some datasetLinks => { links with AccessRights := datasetLinks.AccessRights }
    -- Add relevant metadata links from version document
    let linksOrPanic : Except Panic MetadataLinks :=
      match versionDoc.Links with
      | none => .ok links
      | some versionLinks =>
        let links : MetadataLinks :=
          match versionLinks.Version with
          | none => links
          | some version =>
            if version.HRef != "" then
              { links with Self := some { HRef := version.HRef ++ "/metadata" } }
            else links
        let links : MetadataLinks :=
          { links with Spatial := versionLinks.Spatial, Version := versionLinks.Version }
        -- `versionDoc.Links.Edition.ID` reads through the Edition pointer
        match versionLinks.Edition with
        | none => .error .nilPointerDereference
        | some edition =>
          let websiteVersionURL :=
            urlBuilder.BuildWebsiteDatasetVersionURL datasetDoc.ID edition.ID
              (Itoa versionDoc.Version)
          .ok { links with WebsiteVersion := some { HRef := websiteVersionURL } }
    match linksOrPanic with
    | .error p => .error p
    | .ok links =>
      let distribution := getDistribution metaDataDoc.Downloads
      -- Remove Public and Private download links
      let downloads : Option DownloadList :=
        match metaDataDoc.Downloads with
        | none => none
        | some d =>
          some { CSV := d.CSV.map clearPrivatePublic
                 CSVW := d.CSVW.map clearPrivatePublic
                 XLS := d.XLS.map clearPrivatePublic }
      .ok { metaDataDoc with
              Links := some links, Distribution := distribution, Downloads := downloads }

/-! ## Errors and state validation (packages `apierrors`, `models`) -/

/-- Modelled from the spec: the error values of packages `apierrors` and
`models` the handlers and the store name (the declarations are absent from the
sources); Go compares them by identity. `other` is any error that is none of
the named ones, for instance one of the persistence collaborator. -/
inductive APIError where
  | ErrDatasetNotFound
  | ErrEditionNotFound
  | ErrVersionNotFound
  | ErrMetadataVersionNotFound
  | ErrUnauthorised
  | ErrInternalServer
  | ErrResourceState
  | ErrUnableToParseJSON
  | ErrEditionsNotFound
  | ErrInstanceNotFound
  | ErrDeletePublishedDatasetForbidden
  | ErrAddDatasetAlreadyExists
  | ErrDeleteDatasetNotFound
  | ErrAddUpdateDatasetBadRequest
  | ErrPublishedVersionCollectionIDInvalid
  | ErrAssociatedVersionCollectionIDInvalid
  | ErrVersionStateInvalid
  | other (text : String)
deriving DecidableEq, Repr

/-- Modelled from the spec: the text `err.Error()` of an error. The texts of the
named errors are not in the sources; the handlers depend on them only in that
none starts with `missing mandatory fields:` or `invalid fields:`. -/
def APIError.Error : APIError → String
  | .ErrDatasetNotFound => "dataset not found"
  | .ErrEditionNotFound => "edition not found"
  | .ErrVersionNotFound => "version not found"
  | .ErrMetadataVersionNotFound => "version not found"
  | .ErrUnauthorised => "unauthorised access to API"
  | .ErrInternalServer => "internal error"
  | .ErrResourceState => "incorrect resource state"
  | .ErrUnableToParseJSON => "failed to parse json body"
  | .ErrEditionsNotFound => "no editions were found"
  | .ErrInstanceNotFound => "instance not found"
  | .ErrDeletePublishedDatasetForbidden => "a published dataset cannot be deleted"
  | .ErrAddDatasetAlreadyExists => "forbidden - dataset already exists"
  | .ErrDeleteDatasetNotFound => "dataset not found"
  | .ErrAddUpdateDatasetBadRequest => "failed to parse json body"
  | .ErrPublishedVersionCollectionIDInvalid => "unexpected collection_id in published version"
  | .ErrAssociatedVersionCollectionIDInvalid =>
    "missing collection_id for association between version and a collection"
  | .ErrVersionStateInvalid =>
    "incorrect state, can be one of the following: edition-confirmed, associated or published"
  | .other text => text

/-- Modelled from the spec: `models.PublishedState` (its declaration is absent
from the sources); the state string `published` of section 4.3. -/
def PublishedState : String := "published"

/-- Modelled from the spec: the closed set of legal version states of section
4.3. -/
def validStates : List String :=
  ["created", "submitted", "completed", "edition-confirmed", "associated", "published"]

/-- Modelled from the spec: `models.CheckState` (absent from the sources):
state validation on read of section 4.3; a state outside the closed set is the
invalid-state error of section 7, `none` is Go's nil error. -/
def CheckState (_docType state : String) : Option APIError :=
  if state ∈ validStates then none else some .ErrResourceState

/-! ## The store interface (`store/datastore.go`) -/

/-- Modelled from the spec: `EditionUpdateLinks`, the links block of an edition
variant, as built by the upload script. -/
structure EditionUpdateLinks where
  Dataset : Option LinkObject := none
  LatestVersion : Option LinkObject := none
  Self : Option LinkObject := none
  Versions : Option LinkObject := none
deriving DecidableEq, Repr

/-- Modelled from the spec: `Edition`, one variant of an edition document, as
built by the upload script. -/
structure Edition where
  Edition : String := ""
  FTBType : String := ""
  Links : Option EditionUpdateLinks := none
  State : String := ""
  Type_ : String := ""
deriving DecidableEq, Repr

/-- Modelled from the spec: `EditionUpdate`, the stored edition document with
its `current` and `next` variants. -/
structure EditionUpdate where
  ID : String := ""
  Current : Option Edition := none
  Next : Option Edition := none
deriving DecidableEq, Repr

/-- Modelled from the spec: `models.EditionUpdateResults` (its declaration is
absent from the sources), the list of editions a list query answers with. -/
structure EditionUpdateResults where
  Items : List EditionUpdate := []
deriving DecidableEq, Repr

/-- Modelled from the spec: `models.VersionResults` (its declaration is absent
from the sources), the list of versions a list query answers with. -/
structure VersionResults where
  Items : List Version := []
deriving DecidableEq, Repr

/-- Storer represents basic data access: the methods of the `Storer` interface
the dataset, edition, version and metadata handlers call. A call returns its
document or an error; the list of versions is rewritten by the store before it
is returned, a step that can fault. -/
structure Storer where
  CheckDatasetExists : (ID state : String) → Option APIError
  CheckEditionExists : (ID editionID state : String) → Option APIError
  GetDataset : (ID : String) → Except APIError DatasetUpdate
  GetEdition : (ID editionID state : String) → Except APIError EditionUpdate
  GetEditions : (ID state : String) → Except APIError EditionUpdateResults
  GetVersion : (datasetID editionID version state : String) → Except APIError Version
  GetVersions : (datasetID editionID state : String) →
    Except Panic (Except APIError VersionResults)

/-- DataStore provides the Storer used to retrieve datasets. -/
structure DataStore where
  Backend : Storer

/-- FTBDatasetAPI manages requests against a dataset (`api/api.go`, lines
37-42); the router and host play no part in a handler's answer. -/
structure FTBDatasetAPI where
  dataStore : DataStore
  urlBuilder : Builder

/-! ## `getMetadata` (`api/metadata.go`) -/

/-- What a handler writes to the response writer: the JSON encoding of a
document with status 200, or `http.Error(w, err.Error(), status)`. -/
inductive Response (α : Type) where
  | ok (body : α)
  | failure (err : APIError) (status : Nat)
deriving DecidableEq, Repr

/-- The status mapping of `handleMetadataErr` (`api/metadata.go`, lines
78-96). -/
def handleMetadataErr {α : Type} (err : APIError) : Response α :=
  if err = .ErrUnauthorised then .failure err 404
  else if err = .ErrEditionNotFound then .failure err 404
  else if err = .ErrMetadataVersionNotFound then .failure err 404
  else if err = .ErrDatasetNotFound then .failure err 404
  else .failure .ErrInternalServer 500

/-- The metadata handler for the route variables `dataset_id`, `edition` and
`version` (`api/metadata.go`, lines 13-76). A fault while composing leaves the
handler without a response. Logging and the failure of the final write are not
part of the embedding. -/
def getMetadata (api : FTBDatasetAPI) (datasetID edition version : String) :
    Except Panic (Response Metadata) :=
  match api.dataStore.Backend.GetVersion datasetID edition version "" with
  | .error err =>
    if err = .ErrVersionNotFound then .ok (handleMetadataErr .ErrMetadataVersionNotFound)
    else .ok (handleMetadataErr err)
  | .ok versionDoc =>
    match api.dataStore.Backend.GetDataset datasetID with
    | .error err => .ok (handleMetadataErr err)
    | .ok datasetDoc =>
      match api.dataStore.Backend.CheckEditionExists datasetID edition "" with
      | some err => .ok (handleMetadataErr err)
      | none =>
        match CheckState "version" versionDoc.State with
        | some err => .ok (handleMetadataErr err)
        | none =>
          -- combine version and dataset metadata
          let metaDataDoc : Except Panic Metadata :=
            if versionDoc.State != PublishedState then
              CreateMetaDataDoc datasetDoc.Next (some versionDoc) api.urlBuilder
            else
              CreateMetaDataDoc datasetDoc.Current (some versionDoc) api.urlBuilder
          match metaDataDoc with
          | .error p => .error p
          | .ok metaDataDoc => .ok (.ok metaDataDoc)

/-! ## `getVersions`, `getVersion` (`api/versions.go`) -/

/-- The errors that map to a HTTP 404 response (`api/versions.go`, lines
17-21). -/
def notFound : List APIError :=
  [.ErrDatasetNotFound, .ErrEditionNotFound, .ErrVersionNotFound]

/-- The errors that map to a HTTP 400 response (`api/versions.go`, lines
24-29). -/
def badRequest : List APIError :=
  [.ErrUnableToParseJSON, .ErrPublishedVersionCollectionIDInvalid,
   .ErrAssociatedVersionCollectionIDInvalid, .ErrVersionStateInvalid]

/-- The HTTP 500 responses with a specific message (`api/versions.go`, lines
32-34). -/
def internalServerErrWithMessage : List APIError :=
  [.ErrResourceState]

/-- The status mapping of `handleVersionAPIErr` (`api/versions.go`, lines
154-178); `strings.HasPrefix` is the test that the characters of the text
start with the characters of the given beginning. -/
def handleVersionAPIErr {α : Type} (err : APIError) : Response α :=
  if err ∈ notFound then .failure err 404
  else if err ∈ badRequest then .failure err 400
  else if err ∈ internalServerErrWithMessage then .failure err 500
  else if "missing mandatory fields:".toList.isPrefixOf err.Error.toList then .failure err 400
  else if "invalid fields:".toList.isPrefixOf err.Error.toList then .failure err 400
  else .failure .ErrInternalServer 500

/-- The validation loop of `getVersions` (`api/versions.go`, lines 72-79): the
items are checked in order and the loop breaks at the first item whose state
fails `CheckState`; the answer is that error (`hasInvalidState` is true), or
`none` when the loop ends without one. -/
def checkItemStates : List Version → Option APIError
  | [] => none
  | item :: items =>
    match CheckState "version" item.State with
    | some err => some err
    | none => checkItemStates items

/-- The handler of the version list for the route variables `dataset_id` and
`edition` (`api/versions.go`, lines 44-100); `state` is never assigned and
stays empty. -/
def getVersions (api : FTBDatasetAPI) (datasetID edition : String) :
    Except Panic (Response VersionResults) :=
  let state := ""
  match api.dataStore.Backend.CheckDatasetExists datasetID state with
  | some err => .ok (handleVersionAPIErr err)
  | none =>
    match api.dataStore.Backend.CheckEditionExists datasetID edition state with
    | some err => .ok (handleVersionAPIErr err)
    | none =>
      match api.dataStore.Backend.GetVersions datasetID edition state with
      | .error p => .error p
      | .ok (.error err) => .ok (handleVersionAPIErr err)
      | .ok (.ok results) =>
        match checkItemStates results.Items with
        | some err => .ok (handleVersionAPIErr err)
        | none => .ok (.ok results)

/-- The handler of one version for the route variables `dataset_id`, `edition`
and `version` (`api/versions.go`, lines 102-152). The assignment
`results.Links.Self.HRef = results.Links.Version.HRef` reads through three
pointers and faults when one of them is nil. -/
def getVersion (api : FTBDatasetAPI) (datasetID edition version : String) :
    Except Panic (Response Version) :=
  let state := ""
  match api.dataStore.Backend.CheckDatasetExists datasetID state with
  | some err => .ok (handleVersionAPIErr err)
  | none =>
    match api.dataStore.Backend.CheckEditionExists datasetID edition state with
    | some err => .ok (handleVersionAPIErr err)
    | none =>
      match api.dataStore.Backend.GetVersion datasetID edition version state with
      | .error err => .ok (handleVersionAPIErr err)
      | .ok results =>
        match results.Links with
        | none => .error .nilPointerDereference
        | some links =>
          match links.Self, links.Version with
          | some self, some versionLink =>
            let results : Version :=
              { results with
                  Links := some { links with Self := some { self with HRef := versionLink.HRef } } }
            match CheckState "version" results.State with
            | some _ => .ok (handleVersionAPIErr .ErrResourceState)
            | none => .ok (.ok results)
          | _, _ => .error .nilPointerDereference

/-- The errors that should return a 403 status (`api/dataset.go`, lines
16-19). -/
def datasetsForbidden : List APIError :=
  [.ErrDeletePublishedDatasetForbidden, .ErrAddDatasetAlreadyExists]

/-- The errors that should return a 204 status (`api/dataset.go`, lines
22-24). -/
def datasetsNoContent : List APIError :=
  [.ErrDeleteDatasetNotFound]

/-- The errors that should return a 400 status (`api/dataset.go`, lines
27-29). -/
def datasetsBadRequest : List APIError :=
  [.ErrAddUpdateDatasetBadRequest]

/-- The errors that should return a 404 status (`api/dataset.go`, lines
32-35). -/
def resourcesNotFound : List APIError :=
  [.ErrDatasetNotFound, .ErrEditionsNotFound]

/-- The status mapping of `handleDatasetAPIErr` (`api/dataset.go`, lines
106-129). -/
def handleDatasetAPIErr {α : Type} (err : APIError) : Response α :=
  if err ∈ datasetsForbidden then .failure err 403
  else if err ∈ datasetsNoContent then .failure err 204
  else if err ∈ datasetsBadRequest then .failure err 400
  else if err ∈ resourcesNotFound then .failure err 404
  else .failure .ErrInternalServer 500

/-- The handler of one dataset for the route variable `dataset_id`
(`api/dataset.go`, lines 67-104): the document the store returns is written as
it is. The store returns a document with a nil error, so the handler's test for
a nil document does not fire. -/
def getDataset (api : FTBDatasetAPI) (datasetID : String) :
    Except Panic (Response DatasetUpdate) :=
  match api.dataStore.Backend.GetDataset datasetID with
  | .error err => .ok (handleDatasetAPIErr err)
  | .ok dataset => .ok (.ok dataset)

/-! ## `getEditions`, `getEdition` (`api/editions.go`) -/

/-- The handler of the edition list for the route variable `dataset_id`
(`api/editions.go`, lines 12-60); `state` is never assigned and stays
empty. -/
def getEditions (api : FTBDatasetAPI) (datasetID : String) :
    Except Panic (Response EditionUpdateResults) :=
  let state := ""
  match api.dataStore.Backend.CheckDatasetExists datasetID state with
  | some err =>
    if err = .ErrDatasetNotFound then .ok (.failure err 404)
    else .ok (.failure .ErrInternalServer 500)
  | none =>
    match api.dataStore.Backend.GetEditions datasetID state with
    | .error err =>
      if err = .ErrEditionNotFound then .ok (.failure err 404)
      else .ok (.failure .ErrInternalServer 500)
    | .ok results => .ok (.ok results)

/-- The handler of one edition for the route variables `dataset_id` and
`edition` (`api/editions.go`, lines 62-112); `state` is never assigned and
stays empty. -/
def getEdition (api : FTBDatasetAPI) (datasetID edition : String) :
    Except Panic (Response EditionUpdate) :=
  let state := ""
  match api.dataStore.Backend.CheckDatasetExists datasetID state with
  | some err =>
    if err = .ErrDatasetNotFound then .ok (.failure err 404)
    else .ok (.failure .ErrInternalServer 500)
  | none =>
    match api.dataStore.Backend.GetEdition datasetID edition state with
    | .error err =>
      if err = .ErrEditionNotFound then .ok (.failure err 404)
      else .ok (.failure .ErrInternalServer 500)
    | .ok editionDoc => .ok (.ok editionDoc)

/-! ## Selectors and the persistence collaborator (`mgo`, `bson`) -/

/-- A scalar value of a selector: a Go string or a Go int. -/
inductive Scalar where
  | str (s : String)
  | int (i : Int)
deriving DecidableEq, Repr

/-- The value of one selector key: a scalar the field has to equal, or, under
the key `$or`, a list of alternatives, each a `bson.M` of scalars. -/
inductive Value where
  | scalar (v : Scalar)
  | anyOf (alternatives : List (List (String × Scalar)))
deriving DecidableEq, Repr

/-- A `bson.M` used as a query predicate: the key/value pairs of the map
literal, in the order the source writes them. A Go map has no order, so two
selectors are the same predicate when one is a permutation of the other. -/
abbrev Selector := List (String × Value)

/-- Modelled from the spec: the meaning of a `bson.M` of scalars for the
persistence collaborator: every listed field of the document, read by its
dotted path, is present and equal to the listed value. -/
def satisfiesClause (field : String → Option Scalar) (clause : List (String × Scalar)) : Bool :=
  clause.all (fun kv => field kv.1 == some kv.2)

/-- Modelled from the spec: the meaning of one selector entry: field equality
for a scalar, and under `$or` at least one alternative holds. -/
def satisfiesEntry (field : String → Option Scalar) (entry : String × Value) : Bool :=
  match entry.2 with
  | .scalar v => field entry.1 == some v
  | .anyOf alternatives => entry.1 == "$or" && alternatives.any (satisfiesClause field)

/-- Modelled from the spec: a document satisfies a selector when it satisfies
every entry of it. -/
def satisfies (field : String → Option Scalar) (query : Selector) : Bool :=
  query.all (satisfiesEntry field)

/-- Modelled from the spec: the fields of a stored dataset document the
selectors of the sources name (persisted state layout of section 6): `_id`,
and the state of each variant. -/
def DatasetUpdate.field (d : DatasetUpdate) (path : String) : Option Scalar :=
  if path = "_id" then some (.str d.ID)
  else if path = "current.state" then d.Current.map (fun c => .str c.State)
  else if path = "next.state" then d.Next.map (fun n => .str n.State)
  else none

/-- Modelled from the spec: the fields of one edition variant the selectors of
the sources name, below the variant's name. -/
def Edition.field (e : DatasetAPI.Edition) (path : String) : Option Scalar :=
  if path = "links.dataset.id" then
    (e.Links.bind (fun l => l.Dataset)).map (fun l => .str l.ID)
  else if path = "edition" then some (.str e.Edition)
  else if path = "state" then some (.str e.State)
  else none

/-- Modelled from the spec: the fields of a stored edition document the
selectors of the sources name: the dataset id, edition label and state of each
variant. -/
def EditionUpdate.field (e : EditionUpdate) (path : String) : Option Scalar :=
  if path = "current.links.dataset.id" then e.Current.bind (fun c => c.field "links.dataset.id")
  else if path = "current.edition" then e.Current.bind (fun c => c.field "edition")
  else if path = "current.state" then e.Current.bind (fun c => c.field "state")
  else if path = "next.links.dataset.id" then e.Next.bind (fun n => n.field "links.dataset.id")
  else if path = "next.edition" then e.Next.bind (fun n => n.field "edition")
  else if path = "next.state" then e.Next.bind (fun n => n.field "state")
  else none

/-- Modelled from the spec: the fields of a stored version document the
selectors of the sources name: the dataset link id, edition, version number,
state and id. -/
def Version.field (v : DatasetAPI.Version) (path : String) : Option Scalar :=
  if path = "links.dataset.id" then
    (v.Links.bind (fun l => l.Dataset)).map (fun l => .str l.ID)
  else if path = "edition" then some (.str v.Edition)
  else if path = "version" then some (.int v.Version)
  else if path = "state" then some (.str v.State)
  else if path = "id" then some (.str v.ID)
  else none

/-- The errors of a query of the persistence collaborator: `mgo.ErrNotFound`,
or any other error, with its text. -/
inductive MgoError where
  | ErrNotFound
  | other (text : String)
deriving DecidableEq, Repr

/-- The Go `error` a query error is when a store function returns it as it is
(`return err`); the text of `mgo.ErrNotFound` is `not found`. -/
def MgoError.asError : MgoError → APIError
  | .ErrNotFound => .other "not found"
  | .other text => .other text

/-- Mongo represents the store: the documents of the three collections
`datasets`, `editions` and `instances`, in their natural order, and the error
every query fails with when the session is broken (`none` for a working
session). -/
structure Mongo where
  datasets : List DatasetUpdate := []
  editions : List EditionUpdate := []
  instances : List Version := []
  failure : Option String := none
deriving DecidableEq, Repr

/-- Modelled from the spec: `Find(query).Count()` on a collection
(`CountMatching` of section 6). -/
def Mongo.findCount {α : Type} (m : Mongo) (collection : List α)
    (field : α → String → Option Scalar) (query : Selector) : Except MgoError Nat :=
  match m.failure with
  | some text => .error (.other text)
  | none => .ok (collection.filter (fun d => satisfies (field d) query)).length

/-- Modelled from the spec: `Find(query).One(&doc)` on a collection: the first
matching document, `mgo.ErrNotFound` when there is none. -/
def Mongo.findOne {α : Type} (m : Mongo) (collection : List α)
    (field : α → String → Option Scalar) (query : Selector) : Except MgoError α :=
  match m.failure with
  | some text => .error (.other text)
  | none =>
    match (collection.filter (fun d => satisfies (field d) query)).head? with
    | none => .error .ErrNotFound
    | some d => .ok d

/-- Modelled from the spec: `Find(query).Iter()` followed by
`iter.All(&results)` on a collection (`ListEditions`, `ListVersions` of
section 6): the matching documents in their natural order. -/
def Mongo.findAll {α : Type} (m : Mongo) (collection : List α)
    (field : α → String → Option Scalar) (query : Selector) : Except MgoError (List α) :=
  match m.failure with
  | some text => .error (.other text)
  | none => .ok (collection.filter (fun d => satisfies (field d) query))

/-- Modelled from the spec: `Find(query).Sort("-version").One(&version)` on
the instances collection (`FindHighestVersionNumber` of section 6): the
matching documents sorted by descending version number, then the first. -/
def Mongo.findOneSortedByVersionDesc (m : Mongo) (query : Selector) : Except MgoError Version :=
  match m.failure with
  | some text => .error (.other text)
  | none =>
    let found := m.instances.filter (fun d => satisfies d.field query)
    match (found.insertionSort (fun a b => a.Version ≥ b.Version)).head? with
    | none => .error .ErrNotFound
    | some d => .ok d

/-! ## The Mongo store (`mongo/dataset_store.go`) -/

/-- Modelled from the spec: `models.EditionConfirmedState` (declaration absent
from the sources), the state `edition-confirmed` of section 4.3. -/
def EditionConfirmedState : String := "edition-confirmed"

/-- Modelled from the spec: `models.AssociatedState` (declaration absent from
the sources), the state `associated` of section 4.3. -/
def AssociatedState : String := "associated"

/-- The selector of the edition list (`mongo/dataset_store.go`, lines
118-132). -/
def buildEditionsQuery (id state : String) : Selector :=
  if state != "" then
    [("current.links.dataset.id", .scalar (.str id)),
     ("current.state", .scalar (.str state))]
  else
    [("next.links.dataset.id", .scalar (.str id))]

/-- The selector of one edition (`mongo/dataset_store.go`, lines 152-168). -/
def buildEditionQuery (id editionID state : String) : Selector :=
  if state != "" then
    [("current.links.dataset.id", .scalar (.str id)),
     ("current.edition", .scalar (.str editionID)),
     ("current.state", .scalar (.str state))]
  else
    [("next.links.dataset.id", .scalar (.str id)),
     ("next.edition", .scalar (.str editionID))]

/-- The selector of the version list (`mongo/dataset_store.go`, lines
231-252). -/
def buildVersionsQuery (id editionID state : String) : Selector :=
  if state == "" then
    [("links.dataset.id", .scalar (.str id)),
     ("edition", .scalar (.str editionID)),
     ("$or", .anyOf
        [[("state", .str EditionConfirmedState)],
         [("state", .str AssociatedState)],
         [("state", .str PublishedState)]])]
  else
    [("links.dataset.id", .scalar (.str id)),
     ("edition", .scalar (.str editionID)),
     ("state", .scalar (.str state))]

/-- The selector of one version (`mongo/dataset_store.go`, lines 276-294). -/
def buildVersionQuery (id editionID state : String) (versionID : Int) : Selector :=
  if state != PublishedState then
    [("links.dataset.id", .scalar (.str id)),
     ("version", .scalar (.int versionID)),
     ("edition", .scalar (.str editionID))]
  else
    [("links.dataset.id", .scalar (.str id)),
     ("edition", .scalar (.str editionID)),
     ("version", .scalar (.int versionID)),
     ("state", .scalar (.str state))]

/-- The query `CheckDatasetExists` builds (`mongo/dataset_store.go`, lines
301-311). -/
def checkDatasetExistsQuery (id state : String) : Selector :=
  if state == "" then
    [("_id", .scalar (.str id))]
  else
    [("_id", .scalar (.str id)),
     ("current.state", .scalar (.str state))]

/-- CheckDatasetExists checks that the dataset exists (`mongo/dataset_store.go`,
lines 296-323); `none` is Go's nil error. -/
def Mongo.CheckDatasetExists (m : Mongo) (id state : String) : Option APIError :=
  let query := checkDatasetExistsQuery id state
  match m.findCount m.datasets DatasetUpdate.field query with
  | .error err => some err.asError
  | .ok count => if count == 0 then some .ErrDatasetNotFound else none

/-- The query `CheckEditionExists` builds (`mongo/dataset_store.go`, lines
330-342). -/
def checkEditionExistsQuery (id editionID state : String) : Selector :=
  if state == "" then
    [("next.links.dataset.id", .scalar (.str id)),
     ("next.edition", .scalar (.str editionID))]
  else
    [("current.links.dataset.id", .scalar (.str id)),
     ("current.edition", .scalar (.str editionID)),
     ("current.state", .scalar (.str state))]

/-- CheckEditionExists checks that the edition of a dataset exists
(`mongo/dataset_store.go`, lines 325-354). -/
def Mongo.CheckEditionExists (m : Mongo) (id editionID state : String) : Option APIError :=
  let query := checkEditionExistsQuery id editionID state
  match m.findCount m.editions EditionUpdate.field query with
  | .error err => some err.asError
  | .ok count => if count == 0 then some .ErrEditionNotFound else none

/-- The value a Go `int` of 64 bits holds after an arithmetic operation whose
exact result is `i`: the result wraps modulo 2^64 into the range from
-9223372036854775808 to 9223372036854775807. -/
def wrapInt (i : Int) : Int :=
  (i + 9223372036854775808) % 18446744073709551616 - 9223372036854775808

/-- GetNextVersion retrieves the latest version for an edition of a dataset
(`mongo/dataset_store.go`, lines 170-194) and answers with the number after it,
`version.Version + 1` in the arithmetic of `int`; on an error other than
not-found the Go function returns the error. -/
def Mongo.GetNextVersion (m : Mongo) (datasetID edition : String) : Except APIError Int :=
  let selector : Selector :=
    [("links.dataset.id", .scalar (.str datasetID)),
     ("edition", .scalar (.str edition))]
  -- Results are sorted in reverse order to get latest version
  match m.findOneSortedByVersionDesc selector with
  | .error .ErrNotFound => .ok 1
  | .error err => .error err.asError
  | .ok version => .ok (wrapInt (version.Version + 1))

/-- GetDataset retrieves a dataset document (`mongo/dataset_store.go`, lines
73-87). -/
def Mongo.GetDataset (m : Mongo) (id : String) : Except APIError DatasetUpdate :=
  match m.findOne m.datasets DatasetUpdate.field [("_id", .scalar (.str id))] with
  | .error .ErrNotFound => .error .ErrDatasetNotFound
  | .error err => .error err.asError
  | .ok dataset => .ok dataset

/-- GetEditions retrieves all edition documents for a dataset
(`mongo/dataset_store.go`, lines 89-116). -/
def Mongo.GetEditions (m : Mongo) (id state : String) : Except APIError EditionUpdateResults :=
  let selector := buildEditionsQuery id state
  match m.findAll m.editions EditionUpdate.field selector with
  | .error .ErrNotFound => .error .ErrEditionNotFound
  | .error err => .error err.asError
  | .ok results =>
    if results.length < 1 then .error .ErrEditionNotFound
    else .ok { Items := results }

/-- GetEdition retrieves an edition document for a dataset
(`mongo/dataset_store.go`, lines 134-150). -/
def Mongo.GetEdition (m : Mongo) (id editionID state : String) : Except APIError EditionUpdate :=
  let selector := buildEditionQuery id editionID state
  match m.findOne m.editions EditionUpdate.field selector with
  | .error .ErrNotFound => .error .ErrEditionNotFound
  | .error err => .error err.asError
  | .ok edition => .ok edition

/-- The assignment `results[i].Links.Self.HRef = results[i].Links.Version.HRef`
(`mongo/dataset_store.go`, line 225) on one item: it reads through the
pointers `Links`, `Links.Self` and `Links.Version` and faults when one of them
is nil. -/
def rewriteSelfLink (item : Version) : Except Panic Version :=
  match item.Links with
  | none => .error .nilPointerDereference
  | some links =>
    match links.Self, links.Version with
    | some self, some versionLink =>
      .ok { item with
              Links := some { links with Self := some { self with HRef := versionLink.HRef } } }
    | _, _ => .error .nilPointerDereference

/-- The loop over the results of `GetVersions` (`mongo/dataset_store.go`, lines
223-226): the items are rewritten in order, the first fault ends the loop. -/
def rewriteSelfLinks : List Version → Except Panic (List Version)
  | [] => .ok []
  | item :: items =>
    match rewriteSelfLink item with
    | .error p => .error p
    | .ok item =>
      match rewriteSelfLinks items with
      | .error p => .error p
      | .ok items => .ok (item :: items)

/-- GetVersions retrieves all version documents for a dataset edition
(`mongo/dataset_store.go`, lines 196-229). -/
def Mongo.GetVersions (m : Mongo) (id editionID state : String) :
    Except Panic (Except APIError VersionResults) :=
  let selector := buildVersionsQuery id editionID state
  match m.findAll m.instances Version.field selector with
  | .error .ErrNotFound => .ok (.error .ErrVersionNotFound)
  | .error err => .ok (.error err.asError)
  | .ok results =>
    if results.length < 1 then .ok (.error .ErrVersionNotFound)
    else
      match rewriteSelfLinks results with
      | .error p => .error p
      | .ok results => .ok (.ok { Items := results })

/-- The value of a decimal digit, `none` for any other character. -/
def digitValue (c : Char) : Option Nat :=
  if '0' ≤ c ∧ c ≤ '9' then some (c.toNat - '0'.toNat) else none

/-- The number a list of decimal digits writes, after the digits already
read; `none` when a character is not a digit. -/
def parseDecimal : List Char → Nat → Option Nat
  | [], value => some value
  | c :: cs, value =>
    match digitValue c with
    | none => none
    | some d => parseDecimal cs (value * 10 + d)

/-- Modelled from the spec: `strconv.Atoi` of the Go library: an optional sign
followed by at least one decimal digit, within the range of a 64-bit `int`;
otherwise its error, with the text Go gives it. -/
def Atoi (s : String) : Except APIError Int :=
  let digits : List Char :=
    match s.toList with
    | '+' :: rest => rest
    | '-' :: rest => rest
    | cs => cs
  let negative : Bool :=
    match s.toList with
    | '-' :: _ => true
    | _ => false
  match digits with
  | [] => .error (.other ("strconv.Atoi: parsing " ++ s.quote ++ ": invalid syntax"))
  | _ :: _ =>
    match parseDecimal digits 0 with
    | none => .error (.other ("strconv.Atoi: parsing " ++ s.quote ++ ": invalid syntax"))
    | some n =>
      let value : Int := if negative then -(n : Int) else (n : Int)
      if -(2 ^ 63 : Int) ≤ value ∧ value ≤ 2 ^ 63 - 1 then .ok value
      else .error (.other ("strconv.Atoi: parsing " ++ s.quote ++ ": value out of range"))

/-- GetVersion retrieves a version document for a dataset edition
(`mongo/dataset_store.go`, lines 254-274). -/
def Mongo.GetVersion (m : Mongo) (id editionID versionID state : String) :
    Except APIError Version :=
  match Atoi versionID with
  | .error err => .error err
  | .ok versionNumber =>
    let selector := buildVersionQuery id editionID state versionNumber
    match m.findOne m.instances Version.field selector with
    | .error .ErrNotFound => .error .ErrVersionNotFound
    | .error err => .error err.asError
    | .ok version => .ok version

/-! ## The service over the Mongo store (`cmd/ftb-dataset-api/main.go`) -/

/-- The store the service runs on: `DatsetAPIStore` embeds the Mongo store,
whose methods satisfy the `Storer` interface (`main.go`, lines 20-26, 71). -/
def Mongo.Backend (m : Mongo) : Storer :=
  { CheckDatasetExists := m.CheckDatasetExists
    CheckEditionExists := m.CheckEditionExists
    GetDataset := m.GetDataset
    GetEdition := m.GetEdition
    GetEditions := m.GetEditions
    GetVersion := m.GetVersion
    GetVersions := m.GetVersions }

/-- The API the service creates over the Mongo store and the URL builder
(`main.go`, lines 71-77). -/
def Mongo.API (m : Mongo) (urlBuilder : Builder) : FTBDatasetAPI :=
  { dataStore := { Backend := m.Backend }, urlBuilder := urlBuilder }

/-! ## The version document after composition (`models/metadata.go`) -/

/-- The version document as `CreateMetaDataDoc` leaves it when it returns:
`metaDataDoc.Downloads` is the pointer `versionDoc.Downloads`, so the
assignments of lines 114-127 clear the public and private hrefs of the
version's own download entries. A call that faults does so before line 111 and
leaves the document as it was. -/
def versionDocAfterCreateMetaDataDoc (versionDoc : Version) : Version :=
  { versionDoc with
      Downloads :=
        match versionDoc.Downloads with
        | none => none
        | some d =>
          some { CSV := d.CSV.map clearPrivatePublic
                 CSVW := d.CSVW.map clearPrivatePublic
                 XLS := d.XLS.map clearPrivatePublic } }

/-! ## The option loop of the upload script (`scripts/upload-datasets/main.go`) -/

/-- The dimension of the codebook the FTB service answers with (`Dimension` of
`main.go`, lines 170-176; the name `Dimension` is taken by the model's). -/
structure FTBDimension where
  Codes : List String := []
  Label : String := ""
  Labels : List String := []
  Name : String := ""
  MapFrom : List String := []
deriving DecidableEq, Repr

/-- Modelled from the spec: `models.DimensionOptionLinks` (declaration absent
from the sources), as the upload script builds it. -/
structure DimensionOptionLinks where
  Code : LinkObject := {}
  CodeList : LinkObject := {}
  Version : LinkObject := {}
deriving DecidableEq, Repr

/-- Modelled from the spec: `models.DimensionOption` (declaration absent from
the sources), as the upload script builds it; `LastUpdated` is the reading of
the clock. -/
structure DimensionOption where
  InstanceID : String := ""
  Label : String := ""
  LastUpdated : Nat := 0
  Links : DimensionOptionLinks := {}
  Name : String := ""
  Option : String := ""
deriving DecidableEq, Repr

/-- The dimension option the loop body builds for the code at index `i`
(`main.go`, lines 224-249 and 515-540, the same text): the label is the code,
or the label at the same index when the dimension has labels, an index out of
range when there are fewer labels than codes; `now` is the clock. -/
def buildDimensionOption (codeListURL datasetAPIURL datasetID edition versionID : String)
    (now : Nat → Nat) (dimension : FTBDimension) (i : Nat) (option : String) :
    Except Panic DimensionOption :=
  let label : Except Panic String :=
    if dimension.Labels.length > 0 then
      match dimension.Labels.get? i with
      | none => .error .indexOutOfRange
      | some label => .ok label
    else .ok option
  match label with
  | .error p => .error p
  | .ok label =>
    .ok
      { InstanceID := versionID
        Label := label
        LastUpdated := now i
        Links :=
          { Code :=
              { HRef := Sprintf "%s/code-lists/%s/codes/%s".toList
                  [codeListURL, dimension.Name, option]
                ID := option }
            CodeList :=
              { HRef := Sprintf "%s/code-lists/%s".toList [codeListURL, dimension.Name]
                ID := dimension.Name }
            Version :=
              { HRef := datasetAPIURL ++ "/datasets/" ++ datasetID ++ "/editions/" ++ edition ++
                  "/versions/1"
                ID := "1" } }
        Name := dimension.Name
        Option := option }

/-- The loop over the codes of a dimension (`main.go`, lines 222-261 and
513-551): each built option is appended to `options`; when `options` has
exactly 500 entries it is handed to `BulkInsertDimensionOptions` and reset to
nil. The answer is the calls made so far, the pending `options`, and the error
of the call that failed, if one did. An entry of `options` is an
`interface{}`, a document or nil. -/
def insertOptionsLoop (bulkInsert : List (Option DimensionOption) → Option APIError)
    (build : Nat → String → Except Panic DimensionOption) :
    Nat → List String → List (Option DimensionOption) → List (List (Option DimensionOption)) →
    Except Panic (List (List (Option DimensionOption)) × List (Option DimensionOption) ×
      Option APIError)
  | _, [], options, calls => .ok (calls, options, none)
  | i, option :: codes, options, calls =>
    match build i option with
    | .error p => .error p
    | .ok dimensionOption =>
      let options := options ++ [some dimensionOption]
      -- Do a bulk upload of 500 documents at a time
      if options.length == 500 then
        match bulkInsert options with
        | some err => .ok (calls ++ [options], options, some err)
        | none => insertOptionsLoop bulkInsert build (i + 1) codes [] (calls ++ [options])
      else insertOptionsLoop bulkInsert build (i + 1) codes options calls

/-- The insertion of the options of one dimension, as `createFTBDatasetBlob`
(`main.go`, lines 221-272) and `createFTBDatasetTable` (lines 510-562) do it
for `ftbOptions.Dimensions[0]`: `options` starts as
`make([]interface{}, 500)`, a slice of 500 nil entries; after the loop the
leftover entries are inserted. The answer is the list of the argument lists of
the calls of `BulkInsertDimensionOptions`, in order, and the error that ended
the insertion, if any. -/
def insertDimensionOptions (bulkInsert : List (Option DimensionOption) → Option APIError)
    (codeListURL datasetAPIURL datasetID edition versionID : String) (now : Nat → Nat)
    (dimension : FTBDimension) :
    Except Panic (List (List (Option DimensionOption)) × Option APIError) :=
  let options : List (Option DimensionOption) := List.replicate 500 none
  match insertOptionsLoop bulkInsert
      (buildDimensionOption codeListURL datasetAPIURL datasetID edition versionID now dimension)
      0 dimension.Codes options [] with
  | .error p => .error p
  | .ok (calls, _, some err) => .ok (calls, some err)
  | .ok (calls, options, none) =>
    -- Add leftover docs to mongo
    if options.length != 0 then
      match bulkInsert options with
      | some err => .ok (calls ++ [options], some err)
      | none => .ok (calls ++ [options], none)
    else .ok (calls, none)

/-! ## Sample documents -/

/-- A URL builder for the website of the builder test. -/
def sampleBuilder : Builder := NewBuilder "localhost:20000"

/-- A published dataset variant with an access-rights link. -/
def sampleCurrent : Dataset :=
  { ID := "123"
    Contacts := [{ Email := "census-team@ons.gov.uk", Name := "census-team" }]
    Description := "2011 Census data for People"
    Keywords := ["census", "people"]
    Links := some { AccessRights := some { HRef := "https://api.example/rights" } }
    NationalStatistic := some true
    State := "published"
    Title := "Census 2011 - People" }

/-- The draft variant of the same dataset, with another title and no links. -/
def sampleNext : Dataset :=
  { ID := "123", Description := "draft", State := "created", Title := "Census 2011 - draft" }

/-- The stored dataset document holding both variants. -/
def sampleDatasetUpdate : DatasetUpdate :=
  { ID := "123", Current := some sampleCurrent, Next := some sampleNext }

/-- A published version with csv and xls downloads, and no csvw download. -/
def sampleVersion : Version :=
  { Downloads := some
      { CSV := some { HRef := "https://dl.example/v1.csv", Private := "s3://private/v1.csv",
                      Public := "https://public.example/v1.csv" }
        XLS := some { HRef := "https://dl.example/v1.xls", Private := "s3://private/v1.xls" } }
    Edition := "2017"
    Links := some
      { Edition := some { HRef := "https://api.example/datasets/1/editions/2017", ID := "2017" }
        Spatial := some { HRef := "https://api.example/spatial" }
        Version := some
          { HRef := "https://api.example/datasets/1/editions/2017/versions/1", ID := "1" } }
    ReleaseDate := "22/03/2012"
    State := "published"
    Version := 1 }

/-- The same version before publication. -/
def sampleDraftVersion : Version :=
  { sampleVersion with State := "associated" }

/-- The Metadata composed from `sampleCurrent` and `sampleVersion`. -/
def sampleMetadata : Metadata :=
  { Contacts := [{ Email := "census-team@ons.gov.uk", Name := "census-team" }]
    Description := "2011 Census data for People"
    Distribution := ["json", "csv", "xls"]
    Downloads := some
      { CSV := some { HRef := "https://dl.example/v1.csv" }
        XLS := some { HRef := "https://dl.example/v1.xls" } }
    Keywords := ["census", "people"]
    Links := some
      { AccessRights := some { HRef := "https://api.example/rights" }
        Self := some
          { HRef := "https://api.example/datasets/1/editions/2017/versions/1/metadata" }
        Spatial := some { HRef := "https://api.example/spatial" }
        Version := some
          { HRef := "https://api.example/datasets/1/editions/2017/versions/1", ID := "1" }
        WebsiteVersion := some
          { HRef := "localhost:20000/datasets/123/editions/2017/versions/1" } }
    NationalStatistic := some true
    ReleaseDate := "22/03/2012"
    Title := "Census 2011 - People" }

/-- The Metadata composed from `sampleNext` and `sampleDraftVersion`. -/
def sampleDraftMetadata : Metadata :=
  { sampleMetadata with
      Contacts := []
      Description := "draft"
      Keywords := []
      Links := some
        { Self := some
            { HRef := "https://api.example/datasets/1/editions/2017/versions/1/metadata" }
          Spatial := some { HRef := "https://api.example/spatial" }
          Version := some
            { HRef := "https://api.example/datasets/1/editions/2017/versions/1", ID := "1" }
          WebsiteVersion := some
            { HRef := "localhost:20000/datasets/123/editions/2017/versions/1" } }
      NationalStatistic := none
      Title := "Census 2011 - draft" }

/-- A store holding one dataset, one edition and one version. -/
def sampleStore (versionDoc : Version) : Storer :=
  { CheckDatasetExists := fun ID _ =>
      if ID = "123" then none else some .ErrDatasetNotFound
    CheckEditionExists := fun ID editionID _ =>
      if ID = "123" ∧ editionID = "2017" then none else some .ErrEditionNotFound
    GetDataset := fun ID =>
      if ID = "123" then .ok sampleDatasetUpdate else .error .ErrDatasetNotFound
    GetEdition := fun ID editionID _ =>
      if ID = "123" ∧ editionID = "2017" then .ok { ID := "2017" }
      else .error .ErrEditionNotFound
    GetEditions := fun ID _ =>
      if ID = "123" then .ok { Items := [{ ID := "2017" }] } else .error .ErrEditionNotFound
    GetVersion := fun datasetID editionID version _ =>
      if datasetID = "123" ∧ editionID = "2017" ∧ version = "1" then .ok versionDoc
      else .error .ErrVersionNotFound
    GetVersions := fun datasetID editionID _ =>
      if datasetID = "123" ∧ editionID = "2017" then .ok (.ok { Items := [versionDoc] })
      else .ok (.error .ErrVersionNotFound) }

/-- The API over the sample store. -/
def sampleAPI (versionDoc : Version) : FTBDatasetAPI :=
  { dataStore := { Backend := sampleStore versionDoc }, urlBuilder := sampleBuilder }

/-- A version whose links block is present and has no edition link. -/
def versionWithoutEditionLink : Version :=
  { Links := some
      { Version := some
          { HRef := "https://api.example/datasets/1/editions/2017/versions/1", ID := "1" } }
    State := "published"
    Version := 1 }

/-- The stored document of a dataset that has never been published: it has a
`next` variant and no `current` variant. -/
def neverPublishedDatasetUpdate : DatasetUpdate :=
  { ID := "123", Next := some sampleNext }

/-- The sample store with the never-published dataset and its published
version 1 of edition 2017. -/
def neverPublishedStore : Storer :=
  { sampleStore sampleVersion with
      GetDataset := fun ID =>
        if ID = "123" then .ok neverPublishedDatasetUpdate else .error .ErrDatasetNotFound }

/-- The API over the never-published store. -/
def neverPublishedAPI : FTBDatasetAPI :=
  { dataStore := { Backend := neverPublishedStore }, urlBuilder := sampleBuilder }

/-- A stored version with the links a version handler reads. -/
def linkedVersion (number : Int) (state : String) : Version :=
  { Edition := "2017"
    Links := some
      { Dataset := some { HRef := "https://api.example/datasets/123", ID := "123" }
        Edition := some { HRef := "https://api.example/datasets/123/editions/2017", ID := "2017" }
        Self := some { HRef := "https://api.example/instances/abc" }
        Version := some { HRef := "https://api.example/datasets/123/editions/2017/versions/1" } }
    State := state
    Version := number }

/-- A stored version whose state is outside the closed set. -/
def invalidStateVersion : Version :=
  linkedVersion 1 "gobbledygook"

/-- The sample store answering the version list query with the given items. -/
def listStore (items : List Version) : Storer :=
  { sampleStore sampleVersion with
      GetVersions := fun datasetID editionID _ =>
        if datasetID = "123" ∧ editionID = "2017" then .ok (.ok { Items := items })
        else .ok (.error .ErrVersionNotFound) }

/-- The API over a list store. -/
def listAPI (items : List Version) : FTBDatasetAPI :=
  { dataStore := { Backend := listStore items }, urlBuilder := sampleBuilder }

/-- Version 2 of edition 2017 of dataset `123`, created and never promoted. -/
def createdVersion : Version :=
  linkedVersion 2 "created"

/-- A store whose dataset `123` was never published and whose edition 2017 has
the versions 1, 3 and 2, stored next to a version 7 of edition 2011. -/
def sampleMongo : Mongo :=
  { datasets :=
      [neverPublishedDatasetUpdate,
       { ID := "456", Current := some { ID := "456", State := "published" },
         Next := some { ID := "456", State := "published" } }]
    instances :=
      [linkedVersion 1 "published",
       { linkedVersion 7 "published" with Edition := "2011" },
       linkedVersion 3 "associated",
       createdVersion] }

/-- The stored document of edition 2017 of dataset `123`, published. -/
def sampleEditionUpdate : EditionUpdate :=
  { ID := "e-2017"
    Current := some
      { Edition := "2017", Links := some { Dataset := some { ID := "123" } },
        State := "published" }
    Next := some
      { Edition := "2017", Links := some { Dataset := some { ID := "123" } },
        State := "published" } }

/-- A store serving dataset `123` with its two variants, its edition 2017, the
published version 1 and the created version 2. -/
def servedMongo : Mongo :=
  { datasets := [sampleDatasetUpdate]
    editions := [sampleEditionUpdate]
    instances := [linkedVersion 1 "published", createdVersion] }

/-- A store whose only version of edition 2017 of dataset `123` has the
greatest number an `int` of 64 bits holds. -/
def greatestVersionMongo : Mongo :=
  { instances := [linkedVersion 9223372036854775807 "published"] }

/-- The served store after an edit of the draft: it differs from `servedMongo`
only in the `next` variant of dataset `123`. -/
def servedMongoEdited : Mongo :=
  { servedMongo with
      datasets :=
        [{ sampleDatasetUpdate with
             Next := some { sampleNext with Title := "Census 2011 - second draft" } }] }

/-- The served store with a stray version 1 of edition 2017 of a dataset
`999` that has no dataset document. -/
def strayVersionMongo : Mongo :=
  { servedMongo with
      instances :=
        servedMongo.instances ++
          [{ linkedVersion 1 "published" with
               Links := some
                 { Dataset := some { ID := "999" }
                   Edition := some { ID := "2017" }
                   Self := some { HRef := "https://api.example/instances/xyz" }
                   Version := some
                     { HRef := "https://api.example/datasets/999/editions/2017/versions/1" } } }] }

/-- A collaborator for `BulkInsertDimensionOptions` that accepts every call. -/
def acceptBulkInsert (_options : List (Option DimensionOption)) : Option APIError :=
  none

/-- A dimension with two codes and no labels. -/
def sampleDimension : FTBDimension :=
  { Codes := ["E", "W"], Label := "Country", Name := "COUNTRY" }

/-! ## Theorems -/

/-- The distribution of an absent download list. -/
theorem getDistribution_none : getDistribution none = ["json"] := rfl

/-- The distribution of a present download list, one guard per format. -/
theorem getDistribution_some (d : DownloadList) :
    getDistribution (some d) =
      "json" :: ((if hasHRef d.CSV then ["csv"] else []) ++
        ((if hasHRef d.CSVW then ["csvw"] else []) ++
          (if hasHRef d.XLS then ["xls"] else []))) := by
  cases h1 : hasHRef d.CSV <;> cases h2 : hasHRef d.CSVW <;> cases h3 : hasHRef d.XLS <;>
    simp [getDistribution, h1, h2, h3]

/-- The guard on a download entry holds exactly for a present entry with a
non-empty href. -/
theorem hasHRef_iff (o : Option DownloadObject) :
    hasHRef o = true ↔ ∃ e, o = some e ∧ e.HRef ≠ "" := by
  cases o <;> simp [hasHRef]

/-- C1: for every download list, absent ones included, the distribution
contains `json`, contains `csv`, `csvw`, `xls` exactly when the entry of that
name is present with a non-empty href, and contains nothing else. -/
theorem getDistribution_contents (downloads : Option DownloadList) :
    "json" ∈ getDistribution downloads ∧
    ("csv" ∈ getDistribution downloads ↔
      ∃ d e, downloads = some d ∧ d.CSV = some e ∧ e.HRef ≠ "") ∧
    ("csvw" ∈ getDistribution downloads ↔
      ∃ d e, downloads = some d ∧ d.CSVW = some e ∧ e.HRef ≠ "") ∧
    ("xls" ∈ getDistribution downloads ↔
      ∃ d e, downloads = some d ∧ d.XLS = some e ∧ e.HRef ≠ "") ∧
    ∀ s, s ∈ getDistribution downloads →
      s = "json" ∨ s = "csv" ∨ s = "csvw" ∨ s = "xls" := by
  cases downloads with
  | none => simp [getDistribution_none]
  | some d =>
    have h1 := hasHRef_iff d.CSV
    have h2 := hasHRef_iff d.CSVW
    have h3 := hasHRef_iff d.XLS
    rw [getDistribution_some]
    cases c1 : hasHRef d.CSV <;> cases c2 : hasHRef d.CSVW <;> cases c3 : hasHRef d.XLS <;>
      simp [c1, c2, c3] at h1 h2 h3 ⊢ <;> simp_all

/-- C1 at a download list with a csv entry only. -/
theorem getDistribution_contents_witness :
    "csv" ∈ getDistribution (some { CSV := some { HRef := "a.csv" } }) ∧
    "xls" ∉ getDistribution (some { CSV := some { HRef := "a.csv" } }) :=
  ⟨(getDistribution_contents (some { CSV := some { HRef := "a.csv" } })).2.1.mpr
      ⟨_, _, rfl, rfl, by decide⟩,
   fun h => by
    obtain ⟨d, e, hd, he, _⟩ :=
      (getDistribution_contents (some { CSV := some { HRef := "a.csv" } })).2.2.2.1.mp h
    cases hd
    cases he⟩

/-! ### Inversion of `CreateMetaDataDoc` -/

/-- A composition that returns was given two documents. -/
theorem CreateMetaDataDoc_ok_docs {d : Option Dataset} {v : Option Version} {b : Builder}
    {m : Metadata} (h : CreateMetaDataDoc d v b = .ok m) :
    ∃ dd vv, d = some dd ∧ v = some vv := by
  cases d <;> cases v <;> simp [CreateMetaDataDoc] at h ⊢

/-- The composer returns exactly when the version has no links block or its
links block has an edition link. -/
theorem CreateMetaDataDoc_ok_iff (dd : Dataset) (vv : Version) (b : Builder) :
    (∃ m, CreateMetaDataDoc (some dd) (some vv) b = .ok m) ↔
      ∀ vl, vv.Links = some vl → ∃ e, vl.Edition = some e := by
  unfold CreateMetaDataDoc
  simp only
  cases hvl : vv.Links with
  | none => simp
  | some vl =>
    cases he : vl.Edition with
    | none =>
      simp only [he]
      constructor
      · rintro ⟨m, hm⟩
        cases hm
      · intro h
        obtain ⟨e, he2⟩ := h vl rfl
        simp [he] at he2
    | some e => simp [he]

/-- The links of a composed Metadata. -/
theorem CreateMetaDataDoc_links {dd : Dataset} {vv : Version} {b : Builder}
    {m : Metadata} (h : CreateMetaDataDoc (some dd) (some vv) b = .ok m) :
    ∃ l, m.Links = some l ∧
      l.AccessRights = dd.Links.bind (fun dl => dl.AccessRights) ∧
      l.Spatial = vv.Links.bind (fun vl => vl.Spatial) ∧
      l.Version = vv.Links.bind (fun vl => vl.Version) ∧
      l.Self = (vv.Links.bind (fun vl => vl.Version)).bind
        (fun ver => if ver.HRef = "" then none else some { HRef := ver.HRef ++ "/metadata" }) ∧
      (vv.Links = none → l.WebsiteVersion = none) ∧
      (∀ vl, vv.Links = some vl → ∃ e, vl.Edition = some e ∧
        l.WebsiteVersion =
          some { HRef := b.BuildWebsiteDatasetVersionURL dd.ID e.ID (Itoa vv.Version) }) := by
  unfold CreateMetaDataDoc at h
  simp only at h
  cases hvl : vv.Links with
  | none =>
    simp only [hvl] at h
    injection h with h
    subst h
    cases hdl : dd.Links <;> simp
  | some vl =>
    simp only [hvl] at h
    cases he : vl.Edition with
    | none => simp [he] at h
    | some e =>
      simp only [he] at h
      injection h with h
      subst h
      cases hdl : dd.Links <;> cases hv : vl.Version <;> simp [he, hv]
      all_goals split <;> simp_all

/-- The distribution and the downloads of a composed Metadata. -/
theorem CreateMetaDataDoc_downloads {dd : Dataset} {vv : Version} {b : Builder}
    {m : Metadata} (h : CreateMetaDataDoc (some dd) (some vv) b = .ok m) :
    m.Distribution = getDistribution vv.Downloads ∧
    m.Downloads = vv.Downloads.map (fun d =>
      { CSV := d.CSV.map clearPrivatePublic
        CSVW := d.CSVW.map clearPrivatePublic
        XLS := d.XLS.map clearPrivatePublic }) := by
  unfold CreateMetaDataDoc at h
  simp only at h
  split at h
  · cases h
  · injection h with h
    subst h
    cases vv.Downloads <;> simp

/-- The fields a composed Metadata copies from the dataset variant. -/
theorem CreateMetaDataDoc_dataset_fields {dd : Dataset} {vv : Version} {b : Builder}
    {m : Metadata} (h : CreateMetaDataDoc (some dd) (some vv) b = .ok m) :
    m.Contacts = dd.Contacts ∧ m.Description = dd.Description ∧ m.Keywords = dd.Keywords ∧
    m.License = dd.License ∧ m.Methodologies = dd.Methodologies ∧
    m.NationalStatistic = dd.NationalStatistic ∧ m.NextRelease = dd.NextRelease ∧
    m.Publications = dd.Publications ∧ m.Publisher = dd.Publisher ∧ m.QMI = dd.QMI ∧
    m.RelatedDatasets = dd.RelatedDatasets ∧ m.ReleaseFrequency = dd.ReleaseFrequency ∧
    m.Theme = dd.Theme ∧ m.Title = dd.Title ∧ m.UnitOfMeasure = dd.UnitOfMeasure ∧
    m.URI = dd.URI := by
  unfold CreateMetaDataDoc at h
  simp only at h
  split at h
  · cases h
  · injection h with h
    subst h
    simp

/-- The fields a composed Metadata copies from the version unchanged. -/
theorem CreateMetaDataDoc_version_fields {dd : Dataset} {vv : Version} {b : Builder}
    {m : Metadata} (h : CreateMetaDataDoc (some dd) (some vv) b = .ok m) :
    m.Alerts = vv.Alerts ∧ m.Dimensions = vv.Dimensions ∧ m.FTBType = vv.FTBType ∧
    m.IsBasedOn = vv.IsBasedOn ∧ m.LatestChanges = vv.LatestChanges ∧
    m.ReleaseDate = vv.ReleaseDate ∧ m.Tables = vv.Tables ∧ m.Temporal = vv.Temporal ∧
    m.Type_ = vv.Type_ ∧ m.UsageNotes = vv.UsageNotes := by
  unfold CreateMetaDataDoc at h
  simp only at h
  split at h
  · cases h
  · injection h with h
    subst h
    simp

/-! ### Distribution -/

/-- C2: the distribution of every download list starts with `json`, has no
duplicates and is a sublist of json, csv, csvw, xls in that order; with csv and
xls hrefs populated and csvw not, it is exactly json, csv, xls; and it is the
distribution stored in the Metadata `CreateMetaDataDoc` returns. -/
theorem getDistribution_ordered (downloads : Option DownloadList) :
    (getDistribution downloads).head? = some "json" ∧
    (getDistribution downloads).Nodup ∧
    List.Sublist (getDistribution downloads) ["json", "csv", "csvw", "xls"] ∧
    (∀ d c x, downloads = some d → d.CSV = some c → c.HRef ≠ "" →
      d.XLS = some x → x.HRef ≠ "" → (∀ w, d.CSVW = some w → w.HRef = "") →
      getDistribution downloads = ["json", "csv", "xls"]) ∧
    (∀ (datasetDoc : Dataset) (versionDoc : Version) (urlBuilder : Builder) (m : Metadata),
      versionDoc.Downloads = downloads →
      CreateMetaDataDoc (some datasetDoc) (some versionDoc) urlBuilder = .ok m →
      m.Distribution = getDistribution downloads) := by
  refine ⟨?_, ?_, ?_, ?_, ?_⟩
  · cases downloads with
    | none => rfl
    | some d => rw [getDistribution_some]; rfl
  · cases downloads with
    | none => decide
    | some d =>
      rw [getDistribution_some]
      cases hasHRef d.CSV <;> cases hasHRef d.CSVW <;> cases hasHRef d.XLS <;> decide
  · cases downloads with
    | none => decide
    | some d =>
      rw [getDistribution_some]
      cases hasHRef d.CSV <;> cases hasHRef d.CSVW <;> cases hasHRef d.XLS <;> decide
  · intro d c x hd hc hcne hx hxne hw
    subst hd
    have h1 : hasHRef d.CSV = true := (hasHRef_iff _).mpr ⟨c, hc, hcne⟩
    have h3 : hasHRef d.XLS = true := (hasHRef_iff _).mpr ⟨x, hx, hxne⟩
    have h2 : hasHRef d.CSVW = false := by
      cases h : hasHRef d.CSVW with
      | false => rfl
      | true =>
        obtain ⟨w, hw1, hw2⟩ := (hasHRef_iff _).mp h
        exact absurd (hw w hw1) hw2
    rw [getDistribution_some, h1, h2, h3]
    rfl
  · intro datasetDoc versionDoc urlBuilder m hd h
    rw [← hd]
    exact (CreateMetaDataDoc_downloads h).1

/-- C2 at the sample version, which has csv and xls downloads and no csvw. -/
theorem getDistribution_ordered_witness :
    getDistribution sampleVersion.Downloads = ["json", "csv", "xls"] ∧
    sampleMetadata.Distribution = getDistribution sampleVersion.Downloads :=
  ⟨(getDistribution_ordered sampleVersion.Downloads).2.2.2.1 _ _ _ rfl rfl (by decide) rfl
      (by decide) (fun _ h => nomatch h),
   (getDistribution_ordered sampleVersion.Downloads).2.2.2.2
      sampleCurrent sampleVersion sampleBuilder sampleMetadata rfl rfl⟩

/-! ### Downloads -/

/-- The sample version's links block has an edition link. -/
theorem sampleVersion_edition_link :
    ∀ vl, sampleVersion.Links = some vl → ∃ e, vl.Edition = some e :=
  fun _ h => Option.some.inj h ▸ ⟨_, rfl⟩

/-- C3: `CreateMetaDataDoc` returns a Metadata whenever the version's links
block, if present, has an edition link; in the Metadata it returns, every
download entry that is present has empty public and private fields and the
href of the same entry of the input version, and an entry absent in the input
stays absent. -/
theorem CreateMetaDataDoc_strips_downloads (datasetDoc : Dataset) (versionDoc : Version)
    (urlBuilder : Builder) :
    ((∀ vl, versionDoc.Links = some vl → ∃ e, vl.Edition = some e) →
      ∃ m, CreateMetaDataDoc (some datasetDoc) (some versionDoc) urlBuilder = .ok m) ∧
    ∀ m, CreateMetaDataDoc (some datasetDoc) (some versionDoc) urlBuilder = .ok m →
    (versionDoc.Downloads = none → m.Downloads = none) ∧
    (∀ d, versionDoc.Downloads = some d → ∃ md, m.Downloads = some md ∧
      (d.CSV = none → md.CSV = none) ∧
      (∀ e, d.CSV = some e →
        ∃ me, md.CSV = some me ∧ me.HRef = e.HRef ∧ me.Public = "" ∧ me.Private = "") ∧
      (d.CSVW = none → md.CSVW = none) ∧
      (∀ e, d.CSVW = some e →
        ∃ me, md.CSVW = some me ∧ me.HRef = e.HRef ∧ me.Public = "" ∧ me.Private = "") ∧
      (d.XLS = none → md.XLS = none) ∧
      (∀ e, d.XLS = some e →
        ∃ me, md.XLS = some me ∧ me.HRef = e.HRef ∧ me.Public = "" ∧ me.Private = "")) := by
  refine ⟨(CreateMetaDataDoc_ok_iff _ _ _).mpr, ?_⟩
  intro m h
  have hd := (CreateMetaDataDoc_downloads h).2
  constructor
  · intro hn
    rw [hd, hn]
    rfl
  · intro d hdl
    rw [hdl] at hd
    refine ⟨_, hd, ?_, ?_, ?_, ?_, ?_, ?_⟩
    · intro hc; simp [hc]
    · intro e hc; simp [hc, clearPrivatePublic]
    · intro hc; simp [hc]
    · intro e hc; simp [hc, clearPrivatePublic]
    · intro hc; simp [hc]
    · intro e hc; simp [hc, clearPrivatePublic]

/-- C3 at the sample documents: a Metadata is returned, its csv entry keeps its
href and loses its public and private hrefs, the absent csvw entry stays
absent. -/
theorem CreateMetaDataDoc_strips_downloads_witness :
    (∃ m, CreateMetaDataDoc (some sampleCurrent) (some sampleVersion) sampleBuilder = .ok m) ∧
    ∃ md, sampleMetadata.Downloads = some md ∧
      (∃ me, md.CSV = some me ∧ me.HRef = "https://dl.example/v1.csv" ∧
        me.Public = "" ∧ me.Private = "") ∧
      md.CSVW = none := by
  have hc := CreateMetaDataDoc_strips_downloads sampleCurrent sampleVersion sampleBuilder
  obtain ⟨md, hmd, _, hcsv, hcsvw, _⟩ := (hc.2 sampleMetadata rfl).2 _ rfl
  exact ⟨hc.1 sampleVersion_edition_link, md, hmd, hcsv _ rfl, hcsvw rfl⟩

/-! ### Links -/

/-- C4: `CreateMetaDataDoc` returns a Metadata whenever the version's links
block, if present, has an edition link; the Metadata it returns has
`links.self` set, with href the version's `links.version.href` followed by
`/metadata`, when the version has a `links.version` with a non-empty href, and
has `links.self` unset when the version links are absent, `links.version` is
absent, or its href is empty. -/
theorem CreateMetaDataDoc_self_link (datasetDoc : Dataset) (versionDoc : Version)
    (urlBuilder : Builder) :
    ((∀ vl, versionDoc.Links = some vl → ∃ e, vl.Edition = some e) →
      ∃ m, CreateMetaDataDoc (some datasetDoc) (some versionDoc) urlBuilder = .ok m) ∧
    ∀ m, CreateMetaDataDoc (some datasetDoc) (some versionDoc) urlBuilder = .ok m →
    ∃ l, m.Links = some l ∧
      (∀ vl ver, versionDoc.Links = some vl → vl.Version = some ver → ver.HRef ≠ "" →
        ∃ self, l.Self = some self ∧ self.HRef = ver.HRef ++ "/metadata") ∧
      (versionDoc.Links = none → l.Self = none) ∧
      (∀ vl, versionDoc.Links = some vl → vl.Version = none → l.Self = none) ∧
      (∀ vl ver, versionDoc.Links = some vl → vl.Version = some ver → ver.HRef = "" →
        l.Self = none) := by
  refine ⟨(CreateMetaDataDoc_ok_iff _ _ _).mpr, ?_⟩
  intro m h
  obtain ⟨l, hl, -, -, -, hself, -, -⟩ := CreateMetaDataDoc_links h
  refine ⟨l, hl, ?_, ?_, ?_, ?_⟩
  · intro vl ver hvl hver hne
    simp [hself, hvl, hver, hne]
  · intro hvl
    simp [hself, hvl]
  · intro vl hvl hver
    simp [hself, hvl, hver]
  · intro vl ver hvl hver he
    simp [hself, hvl, hver, he]

/-- C4 at the sample documents: the self link of the spec's example. -/
theorem CreateMetaDataDoc_self_link_witness :
    (∃ m, CreateMetaDataDoc (some sampleCurrent) (some sampleVersion) sampleBuilder = .ok m) ∧
    ∃ l, sampleMetadata.Links = some l ∧ ∃ self, l.Self = some self ∧
      self.HRef = "https://api.example/datasets/1/editions/2017/versions/1/metadata" := by
  have hc := CreateMetaDataDoc_self_link sampleCurrent sampleVersion sampleBuilder
  obtain ⟨l, hl, hself, _⟩ := hc.2 sampleMetadata rfl
  exact ⟨hc.1 sampleVersion_edition_link, l, hl, hself _ _ rfl rfl (by decide)⟩

/-- C7: `CreateMetaDataDoc` returns a Metadata whenever the version's links
block, if present, has an edition link; the Metadata it returns has
`links.access_rights` equal to the dataset's (unset when the dataset has no
links) and `links.spatial` and `links.version` equal to the version's (unset
when the version has no links), unmodified. -/
theorem CreateMetaDataDoc_copied_links (datasetDoc : Dataset) (versionDoc : Version)
    (urlBuilder : Builder) :
    ((∀ vl, versionDoc.Links = some vl → ∃ e, vl.Edition = some e) →
      ∃ m, CreateMetaDataDoc (some datasetDoc) (some versionDoc) urlBuilder = .ok m) ∧
    ∀ m, CreateMetaDataDoc (some datasetDoc) (some versionDoc) urlBuilder = .ok m →
    ∃ l, m.Links = some l ∧
      (datasetDoc.Links = none → l.AccessRights = none) ∧
      (∀ dl, datasetDoc.Links = some dl → l.AccessRights = dl.AccessRights) ∧
      (versionDoc.Links = none → l.Spatial = none ∧ l.Version = none) ∧
      (∀ vl, versionDoc.Links = some vl → l.Spatial = vl.Spatial ∧ l.Version = vl.Version) := by
  refine ⟨(CreateMetaDataDoc_ok_iff _ _ _).mpr, ?_⟩
  intro m h
  obtain ⟨l, hl, hacc, hsp, hver, -, -, -⟩ := CreateMetaDataDoc_links h
  refine ⟨l, hl, ?_, ?_, ?_, ?_⟩
  · intro hdl
    simp [hacc, hdl]
  · intro dl hdl
    simp [hacc, hdl]
  · intro hvl
    simp [hsp, hver, hvl]
  · intro vl hvl
    simp [hsp, hver, hvl]

/-- C7 at the sample documents. -/
theorem CreateMetaDataDoc_copied_links_witness :
    (∃ m, CreateMetaDataDoc (some sampleCurrent) (some sampleVersion) sampleBuilder = .ok m) ∧
    ∃ l, sampleMetadata.Links = some l ∧
      l.AccessRights = some { HRef := "https://api.example/rights" } ∧
      l.Spatial = some { HRef := "https://api.example/spatial" } ∧
      l.Version = some
        { HRef := "https://api.example/datasets/1/editions/2017/versions/1", ID := "1" } := by
  have hc := CreateMetaDataDoc_copied_links sampleCurrent sampleVersion sampleBuilder
  obtain ⟨l, hl, _, hacc, _, hv⟩ := hc.2 sampleMetadata rfl
  exact ⟨hc.1 sampleVersion_edition_link, l, hl, hacc _ rfl, (hv _ rfl).1, (hv _ rfl).2⟩

/-- C8: `CreateMetaDataDoc` returns a Metadata whenever the version's links
block, if present, has an edition link; for a version whose links block is
present, the Metadata it returns has `links.website_version.href` equal to the
URL builder's result for the dataset variant's id, the id of the version's
`links.edition` and the decimal rendering of the version number; without a
links block, `links.website_version` is unset. -/
theorem CreateMetaDataDoc_website_version (datasetDoc : Dataset) (versionDoc : Version)
    (urlBuilder : Builder) :
    ((∀ vl, versionDoc.Links = some vl → ∃ e, vl.Edition = some e) →
      ∃ m, CreateMetaDataDoc (some datasetDoc) (some versionDoc) urlBuilder = .ok m) ∧
    ∀ m, CreateMetaDataDoc (some datasetDoc) (some versionDoc) urlBuilder = .ok m →
    ∃ l, m.Links = some l ∧
      (∀ vl, versionDoc.Links = some vl →
        ∃ edition website, vl.Edition = some edition ∧ l.WebsiteVersion = some website ∧
          website.HRef =
            urlBuilder.BuildWebsiteDatasetVersionURL datasetDoc.ID edition.ID
              (Itoa versionDoc.Version)) ∧
      (versionDoc.Links = none → l.WebsiteVersion = none) := by
  refine ⟨(CreateMetaDataDoc_ok_iff _ _ _).mpr, ?_⟩
  intro m h
  obtain ⟨l, hl, -, -, -, -, hnone, hsome⟩ := CreateMetaDataDoc_links h
  refine ⟨l, hl, ?_, hnone⟩
  intro vl hvl
  obtain ⟨e, he, hw⟩ := hsome vl hvl
  exact ⟨e, _, he, hw, rfl⟩

/-- C8 at the sample documents: dataset `123`, edition `2017`, version 1. -/
theorem CreateMetaDataDoc_website_version_witness :
    (∃ m, CreateMetaDataDoc (some sampleCurrent) (some sampleVersion) sampleBuilder = .ok m) ∧
    ∃ l, sampleMetadata.Links = some l ∧ ∃ website, l.WebsiteVersion = some website ∧
      website.HRef = "localhost:20000/datasets/123/editions/2017/versions/1" := by
  have hc := CreateMetaDataDoc_website_version sampleCurrent sampleVersion sampleBuilder
  obtain ⟨l, hl, hw, _⟩ := hc.2 sampleMetadata rfl
  obtain ⟨edition, website, he, hweb, hhref⟩ := hw _ rfl
  cases he
  exact ⟨hc.1 sampleVersion_edition_link, l, hl, website, hweb, hhref.trans (by decide)⟩

/-! ### Field provenance -/

/-- C6: `CreateMetaDataDoc` returns a Metadata whenever the version's links
block, if present, has an edition link; the Metadata it returns takes its
dataset-scoped fields from the dataset variant and its version-scoped fields
from the version (the downloads with their public and private hrefs cleared);
composing the same dataset variant with another version leaves the
dataset-scoped fields as they are, and composing the same version with another
dataset variant leaves the version-scoped fields as they are. -/
theorem CreateMetaDataDoc_provenance (d : Dataset) (v : Version) (b : Builder) :
    ((∀ vl, v.Links = some vl → ∃ e, vl.Edition = some e) →
      ∃ m, CreateMetaDataDoc (some d) (some v) b = .ok m) ∧
    ∀ m, CreateMetaDataDoc (some d) (some v) b = .ok m →
    (m.Contacts = d.Contacts ∧ m.Description = d.Description ∧ m.Keywords = d.Keywords ∧
      m.License = d.License ∧ m.Methodologies = d.Methodologies ∧
      m.NationalStatistic = d.NationalStatistic ∧ m.NextRelease = d.NextRelease ∧
      m.Publications = d.Publications ∧ m.Publisher = d.Publisher ∧ m.QMI = d.QMI ∧
      m.RelatedDatasets = d.RelatedDatasets ∧ m.ReleaseFrequency = d.ReleaseFrequency ∧
      m.Theme = d.Theme ∧ m.Title = d.Title ∧ m.UnitOfMeasure = d.UnitOfMeasure ∧
      m.URI = d.URI) ∧
    (m.Alerts = v.Alerts ∧ m.Dimensions = v.Dimensions ∧
      m.Downloads = v.Downloads.map (fun dl =>
        { CSV := dl.CSV.map clearPrivatePublic
          CSVW := dl.CSVW.map clearPrivatePublic
          XLS := dl.XLS.map clearPrivatePublic }) ∧
      m.FTBType = v.FTBType ∧ m.IsBasedOn = v.IsBasedOn ∧
      m.LatestChanges = v.LatestChanges ∧ m.ReleaseDate = v.ReleaseDate ∧
      m.Tables = v.Tables ∧ m.Temporal = v.Temporal ∧ m.Type_ = v.Type_ ∧
      m.UsageNotes = v.UsageNotes) ∧
    (∀ (v2 : Version) (b2 : Builder) (m2 : Metadata),
      CreateMetaDataDoc (some d) (some v2) b2 = .ok m2 →
      m2.Contacts = m.Contacts ∧ m2.Description = m.Description ∧
      m2.Keywords = m.Keywords ∧ m2.License = m.License ∧
      m2.Methodologies = m.Methodologies ∧ m2.NationalStatistic = m.NationalStatistic ∧
      m2.NextRelease = m.NextRelease ∧ m2.Publications = m.Publications ∧
      m2.Publisher = m.Publisher ∧ m2.QMI = m.QMI ∧
      m2.RelatedDatasets = m.RelatedDatasets ∧ m2.ReleaseFrequency = m.ReleaseFrequency ∧
      m2.Theme = m.Theme ∧ m2.Title = m.Title ∧ m2.UnitOfMeasure = m.UnitOfMeasure ∧
      m2.URI = m.URI) ∧
    (∀ (d2 : Dataset) (b2 : Builder) (m2 : Metadata),
      CreateMetaDataDoc (some d2) (some v) b2 = .ok m2 →
      m2.Alerts = m.Alerts ∧ m2.Dimensions = m.Dimensions ∧ m2.Downloads = m.Downloads ∧
      m2.FTBType = m.FTBType ∧ m2.IsBasedOn = m.IsBasedOn ∧
      m2.LatestChanges = m.LatestChanges ∧ m2.ReleaseDate = m.ReleaseDate ∧
      m2.Tables = m.Tables ∧ m2.Temporal = m.Temporal ∧ m2.Type_ = m.Type_ ∧
      m2.UsageNotes = m.UsageNotes) := by
  refine ⟨(CreateMetaDataDoc_ok_iff _ _ _).mpr, ?_⟩
  intro m h
  have hd := CreateMetaDataDoc_dataset_fields h
  have hv := CreateMetaDataDoc_version_fields h
  have hdl := (CreateMetaDataDoc_downloads h).2
  refine ⟨hd, ?_, ?_, ?_⟩
  · obtain ⟨h1, h2, h3, h4, h5, h6, h7, h8, h9, h10⟩ := hv
    exact ⟨h1, h2, hdl, h3, h4, h5, h6, h7, h8, h9, h10⟩
  · intro v2 b2 m2 h2
    have hd2 := CreateMetaDataDoc_dataset_fields h2
    simp only [hd, hd2, and_self]
  · intro d2 b2 m2 h2
    have hv2 := CreateMetaDataDoc_version_fields h2
    have hdl2 := (CreateMetaDataDoc_downloads h2).2
    simp only [hv, hv2, hdl, hdl2, and_self]

/-- C6 at the sample documents: a Metadata is returned, its title is the
dataset variant's, its release date the version's, and composing the draft
variant with the same version gives the same release date. -/
theorem CreateMetaDataDoc_provenance_witness :
    (∃ m, CreateMetaDataDoc (some sampleCurrent) (some sampleVersion) sampleBuilder = .ok m) ∧
    sampleMetadata.Title = sampleCurrent.Title ∧
    sampleMetadata.ReleaseDate = sampleVersion.ReleaseDate ∧
    sampleDraftMetadata.ReleaseDate = sampleMetadata.ReleaseDate :=
  have hc := CreateMetaDataDoc_provenance sampleCurrent sampleVersion sampleBuilder
  have hp := hc.2 sampleMetadata rfl
  ⟨hc.1 sampleVersion_edition_link, hp.1.2.2.2.2.2.2.2.2.2.2.2.2.2.1, hp.2.1.2.2.2.2.2.2.1,
    (hp.2.2.2 sampleNext sampleBuilder sampleDraftMetadata rfl).2.2.2.2.2.2.1⟩

/-! ### Variant selection in `getMetadata` -/

/-- C5: for a version that passes state validation, `getMetadata` answers with
the composition from the dataset's `current` variant when the version's state
is `published` and from the `next` variant for every other state; where the two
compositions differ, the answer is the `current` one if and only if the state
is `published`, and the `next` one if and only if it is not. -/
theorem getMetadata_variant (api : FTBDatasetAPI) (datasetID edition version : String)
    (versionDoc : Version) (datasetDoc : DatasetUpdate)
    (hv : api.dataStore.Backend.GetVersion datasetID edition version "" = .ok versionDoc)
    (hd : api.dataStore.Backend.GetDataset datasetID = .ok datasetDoc)
    (he : api.dataStore.Backend.CheckEditionExists datasetID edition "" = none)
    (hs : CheckState "version" versionDoc.State = none) :
    (versionDoc.State = "published" →
      getMetadata api datasetID edition version =
        (CreateMetaDataDoc datasetDoc.Current (some versionDoc) api.urlBuilder).map
          Response.ok) ∧
    (versionDoc.State ≠ "published" →
      getMetadata api datasetID edition version =
        (CreateMetaDataDoc datasetDoc.Next (some versionDoc) api.urlBuilder).map
          Response.ok) ∧
    (CreateMetaDataDoc datasetDoc.Current (some versionDoc) api.urlBuilder ≠
        CreateMetaDataDoc datasetDoc.Next (some versionDoc) api.urlBuilder →
      (getMetadata api datasetID edition version =
          (CreateMetaDataDoc datasetDoc.Current (some versionDoc) api.urlBuilder).map
            Response.ok ↔ versionDoc.State = "published") ∧
      (getMetadata api datasetID edition version =
          (CreateMetaDataDoc datasetDoc.Next (some versionDoc) api.urlBuilder).map
            Response.ok ↔ versionDoc.State ≠ "published")) := by
  have hinj : ∀ x y : Except Panic Metadata,
      x.map Response.ok = y.map Response.ok → x = y := by
    intro x y hxy
    cases x <;> cases y <;> simp_all [Except.map]
  have hpub : versionDoc.State = "published" →
      getMetadata api datasetID edition version =
        (CreateMetaDataDoc datasetDoc.Current (some versionDoc) api.urlBuilder).map
          Response.ok := by
    intro hstate
    have hs2 := hs
    rw [hstate] at hs2
    simp only [getMetadata, hv, hd, he, hstate, hs2, PublishedState]
    cases CreateMetaDataDoc datasetDoc.Current (some versionDoc) api.urlBuilder <;>
      simp [Except.map]
  have hnot : versionDoc.State ≠ "published" →
      getMetadata api datasetID edition version =
        (CreateMetaDataDoc datasetDoc.Next (some versionDoc) api.urlBuilder).map
          Response.ok := by
    intro hstate
    simp only [getMetadata, hv, hd, he, hs, PublishedState]
    cases CreateMetaDataDoc datasetDoc.Next (some versionDoc) api.urlBuilder <;>
      simp [Except.map, hstate]
  refine ⟨hpub, hnot, ?_⟩
  intro hne
  constructor
  · constructor
    · intro hres
      by_contra hstate
      exact hne (hinj _ _ ((hres.symm.trans (hnot hstate))))
    · exact hpub
  · constructor
    · intro hres hstate
      exact hne (hinj _ _ ((hpub hstate).symm.trans hres))
    · exact hnot

/-- C5 at the sample store: the published version is answered from `current`,
and the answer differs from the composition from `next`. -/
theorem getMetadata_variant_witness :
    getMetadata (sampleAPI sampleVersion) "123" "2017" "1" = .ok (.ok sampleMetadata) ∧
    getMetadata (sampleAPI sampleVersion) "123" "2017" "1" ≠
      (CreateMetaDataDoc sampleDatasetUpdate.Next (some sampleVersion) sampleBuilder).map
        Response.ok :=
  have hc :=
    getMetadata_variant (sampleAPI sampleVersion) "123" "2017" "1" sampleVersion
      sampleDatasetUpdate rfl rfl rfl rfl
  have hne : CreateMetaDataDoc sampleDatasetUpdate.Current (some sampleVersion) sampleBuilder ≠
      CreateMetaDataDoc sampleDatasetUpdate.Next (some sampleVersion) sampleBuilder :=
    fun heq =>
      have h1 : (Except.ok sampleMetadata : Except Panic Metadata) =
          Except.ok sampleDraftMetadata := heq
      absurd (congrArg Metadata.Title (Except.ok.inj h1)) (by decide)
  ⟨hc.1 rfl, fun hres => absurd rfl ((hc.2.2 hne).2.mp hres)⟩

/-! ### URL builder -/

/-- C9: a Builder created by `NewBuilder w` returns from
`BuildWebsiteDatasetVersionURL d e v` exactly `w`, `/datasets/`, `d`,
`/editions/`, `e`, `/versions/`, `v` joined; so for the test's values. -/
theorem BuildWebsiteDatasetVersionURL_concat (w d e v : String) :
    (NewBuilder w).BuildWebsiteDatasetVersionURL d e v =
        w ++ "/datasets/" ++ d ++ "/editions/" ++ e ++ "/versions/" ++ v ∧
    (NewBuilder "localhost:20000").BuildWebsiteDatasetVersionURL "123" "2017" "1" =
        "localhost:20000/datasets/123/editions/2017/versions/1" := by
  refine ⟨?_, by decide⟩
  have hf : "%s/datasets/%s/editions/%s/versions/%s".toList =
      ['%', 's', '/', 'd', 'a', 't', 'a', 's', 'e', 't', 's', '/', '%', 's',
       '/', 'e', 'd', 'i', 't', 'i', 'o', 'n', 's', '/', '%', 's',
       '/', 'v', 'e', 'r', 's', 'i', 'o', 'n', 's', '/', '%', 's'] := rfl
  have h1 : "/datasets/".data = ['/', 'd', 'a', 't', 'a', 's', 'e', 't', 's', '/'] := rfl
  have h2 : "/editions/".data = ['/', 'e', 'd', 'i', 't', 'i', 'o', 'n', 's', '/'] := rfl
  have h3 : "/versions/".data = ['/', 'v', 'e', 'r', 's', 'i', 'o', 'n', 's', '/'] := rfl
  simp only [Builder.BuildWebsiteDatasetVersionURL, NewBuilder, hf, Sprintf]
  apply String.ext
  simp [String.data_append, String.singleton, h1, h2, h3]

/-! ### Faults -/

/-- C10: composing a non-nil dataset variant with a non-nil version whose
links block is present but has no edition link faults with a nil pointer
dereference (the read of `versionDoc.Links.Edition.ID`), whatever the builder;
no Metadata is returned. -/
theorem CreateMetaDataDoc_faults_without_edition_link (urlBuilder : Builder) :
    CreateMetaDataDoc (some sampleCurrent) (some versionWithoutEditionLink) urlBuilder =
      .error .nilPointerDereference :=
  rfl

/-! ### A dataset that was never published -/

/-- C11: for the never-published dataset `123` (no `current` variant) and its
published version 1, `getMetadata` passes all its checks, hands the nil
`current` variant to `CreateMetaDataDoc` and faults with a nil pointer
dereference; it writes no not-found response. -/
theorem getMetadata_faults_without_current :
    neverPublishedAPI.dataStore.Backend.GetDataset "123" = .ok neverPublishedDatasetUpdate ∧
    neverPublishedDatasetUpdate.Current = none ∧
    neverPublishedAPI.dataStore.Backend.GetVersion "123" "2017" "1" "" = .ok sampleVersion ∧
    sampleVersion.State = "published" ∧
    getMetadata neverPublishedAPI "123" "2017" "1" = .error .nilPointerDereference :=
  ⟨rfl, rfl, rfl, rfl, rfl⟩

/-! ### State validation -/

/-- State validation succeeds exactly on the six legal states. -/
theorem CheckState_valid_iff_aux (docType state : String) :
    CheckState docType state = none ↔
      state = "created" ∨ state = "submitted" ∨ state = "completed" ∨
      state = "edition-confirmed" ∨ state = "associated" ∨ state = "published" := by
  unfold CheckState validStates
  by_cases h : state ∈ ["created", "submitted", "completed", "edition-confirmed",
      "associated", "published"]
  · simp only [h, if_true, true_iff]
    simpa using h
  · simp only [h, if_false]
    constructor
    · intro hc
      cases hc
    · intro hs
      exact absurd (by simpa using hs) h

/-- C20: state validation succeeds if and only if the state is one of the six
strings created, submitted, completed, edition-confirmed, associated,
published; every other value, the empty string and other spellings included,
yields the invalid-state error; the document type passed plays no part, and
no requested visibility enters the check. -/
theorem CheckState_valid_iff (docType state : String) :
    (CheckState docType state = none ↔
      state = "created" ∨ state = "submitted" ∨ state = "completed" ∨
      state = "edition-confirmed" ∨ state = "associated" ∨ state = "published") ∧
    (¬ (state = "created" ∨ state = "submitted" ∨ state = "completed" ∨
        state = "edition-confirmed" ∨ state = "associated" ∨ state = "published") →
      CheckState docType state = some .ErrResourceState) ∧
    CheckState docType "" = some .ErrResourceState ∧
    CheckState docType "Published" = some .ErrResourceState ∧
    CheckState docType "PUBLISHED" = some .ErrResourceState ∧
    CheckState docType "edition_confirmed" = some .ErrResourceState := by
  refine ⟨?_, ?_, rfl, rfl, rfl, rfl⟩
  · unfold CheckState validStates
    by_cases h : state ∈ ["created", "submitted", "completed", "edition-confirmed",
        "associated", "published"]
    · simp only [h, if_true, true_iff]
      simpa using h
    · simp only [h, if_false]
      constructor
      · intro hc
        cases hc
      · intro hs
        exact absurd (by simpa using hs) h
  · intro hs
    unfold CheckState validStates
    have h : state ∉ ["created", "submitted", "completed", "edition-confirmed",
        "associated", "published"] := by simpa using hs
    simp only [h, if_false]

/-- C20 at the states `associated` (valid) and `gobbledygook` (invalid). -/
theorem CheckState_valid_iff_witness :
    CheckState "version" "associated" = none ∧
    CheckState "version" "gobbledygook" = some .ErrResourceState :=
  ⟨(CheckState_valid_iff "version" "associated").1.mpr (by decide),
   (CheckState_valid_iff "version" "gobbledygook").2.1 (by decide)⟩

/-- The version handlers answer the invalid-state error with status 500 and
the error itself. -/
theorem handleVersionAPIErr_ErrResourceState {α : Type} :
    (handleVersionAPIErr .ErrResourceState : Response α) = .failure .ErrResourceState 500 :=
  rfl

/-- The error a failed state validation yields is the invalid-state error. -/
theorem CheckState_eq_some {docType state : String} {err : APIError}
    (h : CheckState docType state = some err) : err = .ErrResourceState := by
  unfold CheckState at h
  split at h
  · cases h
  · exact (Option.some.inj h).symm

/-- The validation loop finds no error exactly when every item is valid. -/
theorem checkItemStates_eq_none (items : List Version) :
    checkItemStates items = none ↔ ∀ item ∈ items, CheckState "version" item.State = none := by
  induction items with
  | nil => simp [checkItemStates]
  | cons item items ih =>
    cases h : CheckState "version" item.State with
    | none => simp [checkItemStates, h, ih]
    | some err => simp [checkItemStates, h]

/-- An error the validation loop finds is the invalid-state error. -/
theorem checkItemStates_eq_some {items : List Version} {err : APIError}
    (h : checkItemStates items = some err) : err = .ErrResourceState := by
  induction items with
  | nil => cases h
  | cons item items ih =>
    cases hc : CheckState "version" item.State with
    | none =>
      simp only [checkItemStates, hc] at h
      exact ih h
    | some e =>
      simp only [checkItemStates, hc] at h
      cases h
      exact CheckState_eq_some hc

/-- C18: once the dataset and edition checks pass and the store returns a list
of versions, `getVersions` writes the invalid-state error with status 500, and
no list, if at least one item has an invalid state; it writes the list the
store returned, whole and in order, if every item's state is valid; any list it
writes is the list the store returned. -/
theorem getVersions_fail_closed (api : FTBDatasetAPI) (datasetID edition : String)
    (results : VersionResults)
    (hd : api.dataStore.Backend.CheckDatasetExists datasetID "" = none)
    (he : api.dataStore.Backend.CheckEditionExists datasetID edition "" = none)
    (hv : api.dataStore.Backend.GetVersions datasetID edition "" = .ok (.ok results)) :
    ((∃ item ∈ results.Items, CheckState "version" item.State ≠ none) →
      getVersions api datasetID edition = .ok (.failure .ErrResourceState 500)) ∧
    ((∀ item ∈ results.Items, CheckState "version" item.State = none) →
      getVersions api datasetID edition = .ok (.ok results)) ∧
    (∀ body, getVersions api datasetID edition = .ok (.ok body) → body = results) := by
  have hsome : ∀ err, checkItemStates results.Items = some err →
      getVersions api datasetID edition = .ok (.failure .ErrResourceState 500) := by
    intro err hc
    have herr := checkItemStates_eq_some hc
    subst herr
    simp only [getVersions, hd, he, hv, hc, handleVersionAPIErr_ErrResourceState]
  have hnone : checkItemStates results.Items = none →
      getVersions api datasetID edition = .ok (.ok results) := by
    intro hc
    simp only [getVersions, hd, he, hv, hc]
  refine ⟨?_, ?_, ?_⟩
  · rintro ⟨item, hmem, hinv⟩
    cases hc : checkItemStates results.Items with
    | none => exact absurd ((checkItemStates_eq_none _).mp hc item hmem) hinv
    | some err => exact hsome err hc
  · intro hall
    exact hnone ((checkItemStates_eq_none _).mpr hall)
  · intro body hbody
    cases hc : checkItemStates results.Items with
    | none =>
      rw [hnone hc] at hbody
      cases hbody
      rfl
    | some err =>
      rw [hsome err hc] at hbody
      cases hbody

/-- C18 at the sample list store: a list with one invalid item out of three is
answered with the error, the list of the two valid items is written whole. -/
theorem getVersions_fail_closed_witness :
    getVersions
        (listAPI [linkedVersion 1 "published", invalidStateVersion, linkedVersion 3 "associated"])
        "123" "2017" = .ok (.failure .ErrResourceState 500) ∧
    getVersions (listAPI [linkedVersion 1 "published", linkedVersion 3 "associated"])
        "123" "2017" =
      .ok (.ok { Items := [linkedVersion 1 "published", linkedVersion 3 "associated"] }) :=
  ⟨(getVersions_fail_closed
      (listAPI [linkedVersion 1 "published", invalidStateVersion, linkedVersion 3 "associated"])
      "123" "2017" _ rfl rfl rfl).1 ⟨invalidStateVersion, by decide, by decide⟩,
   (getVersions_fail_closed
      (listAPI [linkedVersion 1 "published", linkedVersion 3 "associated"])
      "123" "2017" _ rfl rfl rfl).2.1 (by decide)⟩

/-- The version handler answers a version with an invalid state, whose links
it could rewrite, with the invalid-state error and status 500. -/
theorem getVersion_invalid_state :
    getVersion (sampleAPI invalidStateVersion) "123" "2017" "1" =
      .ok (.failure .ErrResourceState 500) := by
  rfl

/-- C19: `getMetadata` rejects the version with the invalid state
`gobbledygook` with status 500 and the generic internal-server error, the
answer it gives to an error of the persistence collaborator, and not with the
invalid-state error; `getVersions` answers the same version with the
invalid-state error. -/
theorem getMetadata_invalid_state_generic :
    CheckState "version" invalidStateVersion.State = some .ErrResourceState ∧
    getMetadata (sampleAPI invalidStateVersion) "123" "2017" "1" =
      .ok (.failure .ErrInternalServer 500) ∧
    (handleMetadataErr (.other "connection refused") : Response Metadata) =
      .failure .ErrInternalServer 500 ∧
    getVersions (sampleAPI invalidStateVersion) "123" "2017" =
      .ok (.failure .ErrResourceState 500) :=
  ⟨by decide, rfl, rfl, rfl⟩

/-! ### Selectors -/

/-- A selector is satisfied when its first entry and the rest are. -/
theorem satisfies_cons (field : String → Option Scalar) (entry : String × Value)
    (query : Selector) :
    satisfies field (entry :: query) = (satisfiesEntry field entry && satisfies field query) := by
  simp [satisfies]

/-- The empty selector is satisfied by every document. -/
theorem satisfies_nil (field : String → Option Scalar) : satisfies field [] = true := by
  simp [satisfies]

/-- A scalar entry is satisfied when the field is present with that value. -/
theorem satisfiesEntry_scalar (field : String → Option Scalar) (key : String) (v : Scalar) :
    satisfiesEntry field (key, .scalar v) = true ↔ field key = some v := by
  simp [satisfiesEntry]

/-- The stored id of a link equals a string exactly when the link is present
with that id. -/
theorem link_id_eq (o : Option LinkObject) (id : String) :
    o.map (fun l => Scalar.str l.ID) = some (.str id) ↔ o.map (fun l => l.ID) = some id := by
  cases o <;> simp

/-- The fields of a version document by path. -/
theorem Version.field_paths (d : DatasetAPI.Version) :
    d.field "links.dataset.id" =
        (d.Links.bind (fun l => l.Dataset)).map (fun l => Scalar.str l.ID) ∧
    d.field "edition" = some (.str d.Edition) ∧
    d.field "version" = some (.int d.Version) ∧
    d.field "state" = some (.str d.State) := by
  simp [Version.field]

/-- What the selector of a (dataset id, edition) pair asks of a version
document. -/
theorem satisfies_pair (d : DatasetAPI.Version) (id edition : String) :
    satisfies d.field
        [("links.dataset.id", .scalar (.str id)), ("edition", .scalar (.str edition))] = true ↔
      (d.Links.bind (fun l => l.Dataset)).map (fun l => l.ID) = some id ∧
        d.Edition = edition := by
  obtain ⟨h1, h2, -, -⟩ := Version.field_paths d
  simp only [satisfies_cons, satisfies_nil, Bool.and_true, Bool.and_eq_true,
    satisfiesEntry_scalar, h1, h2, link_id_eq]
  simp

/-! ### Dataset and edition existence -/

/-- What the selector of one version asks of a version document: dataset id,
edition and version number, and the state `published` when that is the
requested state. -/
theorem satisfies_buildVersionQuery (d : DatasetAPI.Version) (id edition state : String)
    (n : Int) :
    satisfies d.field (buildVersionQuery id edition state n) = true ↔
      ((d.Links.bind (fun l => l.Dataset)).map (fun l => l.ID) = some id ∧
        d.Edition = edition ∧ d.Version = n) ∧
      (state = PublishedState → d.State = PublishedState) := by
  obtain ⟨h1, h2, h3, h4⟩ := Version.field_paths d
  by_cases hs : state = PublishedState
  · subst hs
    simp only [buildVersionQuery, bne_self_eq_false, Bool.false_eq_true, if_false,
      satisfies_cons, satisfies_nil, Bool.and_true, Bool.and_eq_true, satisfiesEntry_scalar,
      h1, h2, h3, h4, link_id_eq]
    simp
    tauto
  · have hne : (state != PublishedState) = true := by simpa using hs
    simp only [buildVersionQuery, hne, if_true, satisfies_cons, satisfies_nil, Bool.and_true,
      Bool.and_eq_true, satisfiesEntry_scalar, h1, h2, h3, link_id_eq]
    simp [hs]
    tauto

/-- What the selector of the version list asks of a version document: dataset
id and edition, and a state among edition-confirmed, associated, published for
the empty requested state, the requested state otherwise. -/
theorem satisfies_buildVersionsQuery (d : DatasetAPI.Version) (id edition state : String) :
    satisfies d.field (buildVersionsQuery id edition state) = true ↔
      ((d.Links.bind (fun l => l.Dataset)).map (fun l => l.ID) = some id ∧
        d.Edition = edition) ∧
      (if state = "" then
        d.State = EditionConfirmedState ∨ d.State = AssociatedState ∨ d.State = PublishedState
       else d.State = state) := by
  obtain ⟨h1, h2, -, h4⟩ := Version.field_paths d
  by_cases hs : state = ""
  · subst hs
    simp only [buildVersionsQuery, beq_self_eq_true, if_true, satisfies_cons, satisfies_nil,
      Bool.and_true, Bool.and_eq_true, satisfiesEntry_scalar, h1, h2, link_id_eq]
    simp [satisfiesEntry, satisfiesClause, h4]
    tauto
  · have hne : (state == "") = false := by simpa using hs
    simp only [buildVersionsQuery, hne, Bool.false_eq_true, if_false, satisfies_cons,
      satisfies_nil, Bool.and_true, Bool.and_eq_true, satisfiesEntry_scalar, h1, h2, h4,
      link_id_eq]
    simp [hs]
    tauto

/-- C14: `buildVersionQuery` returns, as a map, the predicate on
`links.dataset.id`, `edition` and `version` when the requested state is not
`published`, and that predicate with the entry `state = published` added when
it is; every key is one of these four, none begins with `current` or `next`;
a version document satisfies it exactly when it has that dataset id, edition
and version number and, for the requested state `published`, that state. -/
theorem buildVersionQuery_shape (id edition state : String) (n : Int) :
    (state ≠ PublishedState →
      (buildVersionQuery id edition state n).Perm
        [("links.dataset.id", .scalar (.str id)),
         ("edition", .scalar (.str edition)),
         ("version", .scalar (.int n))]) ∧
    (state = PublishedState →
      (buildVersionQuery id edition state n).Perm
        [("links.dataset.id", .scalar (.str id)),
         ("edition", .scalar (.str edition)),
         ("version", .scalar (.int n)),
         ("state", .scalar (.str "published"))]) ∧
    (∀ entry ∈ buildVersionQuery id edition state n,
      entry.1 ∈ ["links.dataset.id", "edition", "version", "state"] ∧
      "current".toList.isPrefixOf entry.1.toList = false ∧
      "next".toList.isPrefixOf entry.1.toList = false) ∧
    (∀ d : DatasetAPI.Version,
      satisfies d.field (buildVersionQuery id edition state n) = true ↔
        ((d.Links.bind (fun l => l.Dataset)).map (fun l => l.ID) = some id ∧
          d.Edition = edition ∧ d.Version = n) ∧
        (state = "published" → d.State = "published")) := by
  refine ⟨?_, ?_, ?_, fun d => satisfies_buildVersionQuery d id edition state n⟩
  · intro hs
    have hne : (state != PublishedState) = true := by simpa using hs
    simp only [buildVersionQuery, hne, if_true]
    exact List.Perm.cons _ (List.Perm.swap _ _ _)
  · intro hs
    subst hs
    simp only [buildVersionQuery, bne_self_eq_false, Bool.false_eq_true, if_false]
    exact List.Perm.refl _
  · intro entry hmem
    by_cases hs : state = PublishedState
    · subst hs
      simp only [buildVersionQuery, bne_self_eq_false, Bool.false_eq_true, if_false,
        List.mem_cons, List.mem_singleton, List.not_mem_nil, or_false] at hmem
      rcases hmem with h | h | h | h <;> subst h <;> dsimp only <;> decide
    · have hne : (state != PublishedState) = true := by simpa using hs
      simp only [buildVersionQuery, hne, if_true, List.mem_cons, List.mem_singleton,
        List.not_mem_nil, or_false] at hmem
      rcases hmem with h | h | h <;> subst h <;> dsimp only <;> decide

/-- C14 at dataset `123`, edition `2017`, version 1, for the empty and the
published state. -/
theorem buildVersionQuery_shape_witness :
    (buildVersionQuery "123" "2017" "" 1).Perm
      [("links.dataset.id", .scalar (.str "123")),
       ("edition", .scalar (.str "2017")),
       ("version", .scalar (.int 1))] ∧
    (buildVersionQuery "123" "2017" "published" 1).Perm
      [("links.dataset.id", .scalar (.str "123")),
       ("edition", .scalar (.str "2017")),
       ("version", .scalar (.int 1)),
       ("state", .scalar (.str "published"))] :=
  ⟨(buildVersionQuery_shape "123" "2017" "" 1).1 (by decide),
   (buildVersionQuery_shape "123" "2017" "published" 1).2.1 rfl⟩

/-- C15: a version document of the dataset and edition satisfies the predicate
of `buildVersionsQuery` with an empty state if and only if its state is one of
edition-confirmed, associated, published, and the predicate built with a
non-empty state if and only if its state is that state; a version in state
`created` satisfies neither the empty-state nor the `published` predicate. -/
theorem buildVersionsQuery_states (id edition : String) (d : DatasetAPI.Version)
    (hid : (d.Links.bind (fun l => l.Dataset)).map (fun l => l.ID) = some id)
    (he : d.Edition = edition) :
    (satisfies d.field (buildVersionsQuery id edition "") = true ↔
      d.State = "edition-confirmed" ∨ d.State = "associated" ∨ d.State = "published") ∧
    (∀ s, s ≠ "" → (satisfies d.field (buildVersionsQuery id edition s) = true ↔ d.State = s)) ∧
    (d.State = "created" →
      satisfies d.field (buildVersionsQuery id edition "") = false ∧
      satisfies d.field (buildVersionsQuery id edition "published") = false) := by
  have hempty : satisfies d.field (buildVersionsQuery id edition "") = true ↔
      d.State = "edition-confirmed" ∨ d.State = "associated" ∨ d.State = "published" := by
    rw [satisfies_buildVersionsQuery]
    simp [hid, he, EditionConfirmedState, AssociatedState, PublishedState]
  have hstate : ∀ s, s ≠ "" →
      (satisfies d.field (buildVersionsQuery id edition s) = true ↔ d.State = s) := by
    intro s hs
    rw [satisfies_buildVersionsQuery]
    simp [hid, he, hs]
  refine ⟨hempty, hstate, ?_⟩
  intro hc
  constructor
  · rw [← Bool.not_eq_true, hempty, hc]
    decide
  · rw [← Bool.not_eq_true, hstate "published" (by decide), hc]
    decide

/-- C15 at the sample versions of dataset `123`, edition `2017`: the published
version 1 is matched by the empty-state predicate, the created version 2 is
matched neither by it nor by the `published` predicate. -/
theorem buildVersionsQuery_states_witness :
    satisfies (linkedVersion 1 "published").field (buildVersionsQuery "123" "2017" "") = true ∧
    satisfies createdVersion.field (buildVersionsQuery "123" "2017" "") = false ∧
    satisfies createdVersion.field (buildVersionsQuery "123" "2017" "published") = false :=
  ⟨(buildVersionsQuery_states "123" "2017" (linkedVersion 1 "published") rfl rfl).1.mpr
      (Or.inr (Or.inr rfl)),
   ((buildVersionsQuery_states "123" "2017" createdVersion rfl rfl).2.2 rfl).1,
   ((buildVersionsQuery_states "123" "2017" createdVersion rfl rfl).2.2 rfl).2⟩

/-- C16, as stated, fails: for the empty requested state the created version 2
of dataset `123`, edition `2017` satisfies the predicate of the get path and
not the predicate of the list path. -/
theorem version_predicates_diverge :
    createdVersion.Version = 2 ∧
    satisfies createdVersion.field (buildVersionQuery "123" "2017" "" 2) = true ∧
    satisfies createdVersion.field (buildVersionsQuery "123" "2017" "") = false := by
  decide

/-- C16, amended: a version document with version number n that satisfies
`buildVersionsQuery(id, edition, state)` satisfies
`buildVersionQuery(id, edition, state, n)`; for the requested state
`published` the two predicates are satisfied by the same documents with version
number n. -/
theorem version_predicates_agree (id edition state : String) (d : DatasetAPI.Version) (n : Int)
    (hn : d.Version = n) :
    (satisfies d.field (buildVersionsQuery id edition state) = true →
      satisfies d.field (buildVersionQuery id edition state n) = true) ∧
    (state = "published" →
      (satisfies d.field (buildVersionQuery id edition state n) = true ↔
        satisfies d.field (buildVersionsQuery id edition state) = true)) := by
  constructor
  · intro h
    rw [satisfies_buildVersionsQuery] at h
    rw [satisfies_buildVersionQuery]
    obtain ⟨⟨h1, h2⟩, h3⟩ := h
    refine ⟨⟨h1, h2, hn⟩, ?_⟩
    intro hs
    subst hs
    simpa [PublishedState] using h3
  · intro hs
    subst hs
    rw [satisfies_buildVersionsQuery, satisfies_buildVersionQuery]
    simp [hn, PublishedState]

/-- C16, amended, at the published version 1 and the requested state
`published`. -/
theorem version_predicates_agree_witness :
    satisfies (linkedVersion 1 "published").field
        (buildVersionQuery "123" "2017" "published" 1) = true ∧
    satisfies (linkedVersion 1 "published").field
        (buildVersionsQuery "123" "2017" "published") = true :=
  have h := version_predicates_agree "123" "2017" "published" (linkedVersion 1 "published") 1 rfl
  ⟨h.1 (by decide), (h.2 rfl).mp (h.1 (by decide))⟩

/-! ### Next version number -/

/-- A number in the range of an `int` of 64 bits is held as it is. -/
theorem wrapInt_of_range (i : Int) (hlow : -9223372036854775808 ≤ i)
    (hhigh : i ≤ 9223372036854775807) : wrapInt i = i := by
  unfold wrapInt
  omega

/-- In a working store, `GetNextVersion` answers 1 when no document matches
the pair's selector, and otherwise the number after the greatest version
number among the matching documents, in the arithmetic of `int`. -/
theorem GetNextVersion_of_found (m : Mongo) (datasetID edition : String)
    (hf : m.failure = none) :
    (m.instances.filter (fun d => satisfies d.field
        [("links.dataset.id", .scalar (.str datasetID)),
         ("edition", .scalar (.str edition))]) = [] →
      m.GetNextVersion datasetID edition = .ok 1) ∧
    (∀ d ∈ m.instances.filter (fun d => satisfies d.field
        [("links.dataset.id", .scalar (.str datasetID)),
         ("edition", .scalar (.str edition))]),
      ∃ top ∈ m.instances.filter (fun d => satisfies d.field
          [("links.dataset.id", .scalar (.str datasetID)),
           ("edition", .scalar (.str edition))]),
        (∀ d2 ∈ m.instances.filter (fun d => satisfies d.field
            [("links.dataset.id", .scalar (.str datasetID)),
             ("edition", .scalar (.str edition))]), d2.Version ≤ top.Version) ∧
        m.GetNextVersion datasetID edition = .ok (wrapInt (top.Version + 1))) := by
  generalize hfound : m.instances.filter (fun d => satisfies d.field
      [("links.dataset.id", .scalar (.str datasetID)),
       ("edition", .scalar (.str edition))]) = found
  have hperm := List.perm_insertionSort
    (fun a b : DatasetAPI.Version => a.Version ≥ b.Version) found
  constructor
  · intro hnil
    subst hnil
    simp [Mongo.GetNextVersion, Mongo.findOneSortedByVersionDesc, hf, hfound]
  · intro d hd
    haveI : IsTotal DatasetAPI.Version (fun a b => a.Version ≥ b.Version) :=
      ⟨fun a b => le_total b.Version a.Version⟩
    haveI : IsTrans DatasetAPI.Version (fun a b => a.Version ≥ b.Version) :=
      ⟨fun _ _ _ hab hbc => le_trans hbc hab⟩
    have hsorted := List.sorted_insertionSort
      (fun a b : DatasetAPI.Version => a.Version ≥ b.Version) found
    cases hs : found.insertionSort (fun a b => a.Version ≥ b.Version) with
    | nil =>
      rw [hs] at hperm
      rw [List.Perm.eq_nil hperm.symm] at hd
      cases hd
    | cons top rest =>
      rw [hs] at hperm hsorted
      refine ⟨top, hperm.subset (List.mem_cons_self _ _), ?_, ?_⟩
      · intro d2 hd2
        have hmem : d2 ∈ top :: rest := hperm.symm.subset hd2
        rcases List.mem_cons.mp hmem with h | h
        · rw [h]
        · exact List.rel_of_sorted_cons hsorted d2 h
      · simp [Mongo.GetNextVersion, Mongo.findOneSortedByVersionDesc, hf, hfound, hs]

/-- C17, as stated, fails: in a store whose version of the pair has the number
9223372036854775807, the greatest an `int` holds, `GetNextVersion` returns
-9223372036854775808, not the maximum plus 1. -/
theorem GetNextVersion_wraps :
    (∀ d ∈ greatestVersionMongo.instances, d.Version ≤ 9223372036854775807) ∧
    linkedVersion 9223372036854775807 "published" ∈ greatestVersionMongo.instances ∧
    greatestVersionMongo.GetNextVersion "123" "2017" = .ok (-9223372036854775808) ∧
    greatestVersionMongo.GetNextVersion "123" "2017" ≠
      .ok (9223372036854775807 + 1) := by
  refine ⟨by decide, by decide, rfl, ?_⟩
  intro h
  have h2 : greatestVersionMongo.GetNextVersion "123" "2017" = .ok (-9223372036854775808) :=
    rfl
  rw [h2] at h
  simp only [Except.ok.injEq] at h
  omega

/-- C17, amended: in a working store, `GetNextVersion` returns 1 when no
version document of the (dataset id, edition) pair exists, and otherwise the
greatest version number among the pair's documents plus 1 in the arithmetic of
`int`: the greatest number plus 1 when that number is below
9223372036854775807, and -9223372036854775808 at it; a store whose documents of
the pair are the same up to their order, whatever its other documents, gets the
same answer. -/
theorem GetNextVersion_max_plus_one (m : Mongo) (datasetID edition : String)
    (hf : m.failure = none) :
    ((∀ d ∈ m.instances,
        ¬ ((d.Links.bind (fun l => l.Dataset)).map (fun l => l.ID) = some datasetID ∧
          d.Edition = edition)) →
      m.GetNextVersion datasetID edition = .ok 1) ∧
    ((∃ d ∈ m.instances,
        (d.Links.bind (fun l => l.Dataset)).map (fun l => l.ID) = some datasetID ∧
          d.Edition = edition) →
      ∃ top ∈ m.instances,
        ((top.Links.bind (fun l => l.Dataset)).map (fun l => l.ID) = some datasetID ∧
          top.Edition = edition) ∧
        (∀ d ∈ m.instances,
          (d.Links.bind (fun l => l.Dataset)).map (fun l => l.ID) = some datasetID ∧
            d.Edition = edition → d.Version ≤ top.Version) ∧
        m.GetNextVersion datasetID edition = .ok (wrapInt (top.Version + 1)) ∧
        (-9223372036854775808 ≤ top.Version → top.Version < 9223372036854775807 →
          m.GetNextVersion datasetID edition = .ok (top.Version + 1)) ∧
        (top.Version = 9223372036854775807 →
          m.GetNextVersion datasetID edition = .ok (-9223372036854775808))) ∧
    (∀ m2 : Mongo, m2.failure = none →
      (m2.instances.filter (fun d =>
          decide ((d.Links.bind (fun l => l.Dataset)).map (fun l => l.ID) = some datasetID ∧
            d.Edition = edition))).Perm
        (m.instances.filter (fun d =>
          decide ((d.Links.bind (fun l => l.Dataset)).map (fun l => l.ID) = some datasetID ∧
            d.Edition = edition))) →
      m2.GetNextVersion datasetID edition = m.GetNextVersion datasetID edition) := by
  have hfilter : ∀ (l : List DatasetAPI.Version),
      l.filter (fun d => satisfies d.field
        [("links.dataset.id", .scalar (.str datasetID)),
         ("edition", .scalar (.str edition))]) =
      l.filter (fun d =>
        decide ((d.Links.bind (fun l => l.Dataset)).map (fun l => l.ID) = some datasetID ∧
          d.Edition = edition)) := by
    intro l
    apply List.filter_congr
    intro d _
    rw [Bool.eq_iff_iff, satisfies_pair]
    simp
  obtain ⟨hnil, hmax⟩ := GetNextVersion_of_found m datasetID edition hf
  rw [hfilter] at hnil hmax
  refine ⟨?_, ?_, ?_⟩
  · intro hnone
    apply hnil
    rw [List.filter_eq_nil_iff]
    intro d hd hp
    exact hnone d hd (by simpa using hp)
  · rintro ⟨d, hd, hp⟩
    obtain ⟨top, htop, hle, hres⟩ := hmax d (List.mem_filter.mpr ⟨hd, by simpa using hp⟩)
    obtain ⟨htopmem, htopp⟩ := List.mem_filter.mp htop
    refine ⟨top, htopmem, by simpa using htopp, ?_, hres, ?_, ?_⟩
    · intro d2 hd2 hp2
      exact hle d2 (List.mem_filter.mpr ⟨hd2, by simpa using hp2⟩)
    · intro hlow hhigh
      rw [hres, wrapInt_of_range (top.Version + 1) (by omega) (by omega)]
    · intro hmaxint
      rw [hres, hmaxint]
      rfl
  · intro m2 hf2 hperm
    obtain ⟨hnil2, hmax2⟩ := GetNextVersion_of_found m2 datasetID edition hf2
    rw [hfilter] at hnil2 hmax2
    cases hfound : m.instances.filter (fun d =>
        decide ((d.Links.bind (fun l => l.Dataset)).map (fun l => l.ID) = some datasetID ∧
          d.Edition = edition)) with
    | nil =>
      rw [hfound] at hperm
      rw [hnil hfound, hnil2 (List.Perm.eq_nil hperm)]
    | cons d rest =>
      have hd : d ∈ m.instances.filter (fun d =>
          decide ((d.Links.bind (fun l => l.Dataset)).map (fun l => l.ID) = some datasetID ∧
            d.Edition = edition)) := by
        rw [hfound]
        exact List.mem_cons_self _ _
      obtain ⟨top, htop, hle, hres⟩ := hmax d hd
      obtain ⟨top2, htop2, hle2, hres2⟩ := hmax2 d (hperm.symm.subset hd)
      have h1 : top.Version ≤ top2.Version := hle2 top (hperm.symm.subset htop)
      have h2 : top2.Version ≤ top.Version := hle top2 (hperm.subset htop2)
      rw [hres, hres2, le_antisymm h1 h2]

/-- C17, amended, at the sample store: edition 2017 of dataset `123` has the
versions 1, 3, 2 and gets 4; edition 2018 has none and gets 1. -/
theorem GetNextVersion_max_plus_one_witness :
    sampleMongo.GetNextVersion "123" "2017" = .ok 4 ∧
    sampleMongo.GetNextVersion "123" "2018" = .ok 1 := by
  have h17 := GetNextVersion_max_plus_one sampleMongo "123" "2017" rfl
  have h18 := GetNextVersion_max_plus_one sampleMongo "123" "2018" rfl
  refine ⟨?_, h18.1 (by decide)⟩
  obtain ⟨top, htop, hpair, hle, hres, -, -⟩ :=
    h17.2.1 ⟨linkedVersion 3 "associated", by decide, by decide⟩
  have h3 : (3 : Int) ≤ top.Version := hle (linkedVersion 3 "associated") (by decide) (by decide)
  have hmem : top.Edition = "2017" → top.Version ≤ 3 := by
    simp only [sampleMongo, List.mem_cons, List.mem_singleton, List.not_mem_nil, or_false] at htop
    rcases htop with h | h | h | h <;> subst h <;> decide
  rw [hres, le_antisymm (hmem hpair.2) h3]
  rfl

/-! ### Error responses -/

/-- C26: `handleVersionAPIErr` answers every error with one of the statuses
404, 400, 500: 404 exactly for the dataset-, edition- and version-not-found
errors, 400 exactly for the errors of the bad-request set and the errors whose
text starts with `missing mandatory fields:` or `invalid fields:`, 500 for
every other error; each status is the answer to some error. -/
theorem handleVersionAPIErr_statuses {α : Type} (err : APIError) :
    (∃ e status, (handleVersionAPIErr err : Response α) = .failure e status ∧
      (status = 404 ∨ status = 400 ∨ status = 500) ∧
      (status = 404 ↔
        err = .ErrDatasetNotFound ∨ err = .ErrEditionNotFound ∨ err = .ErrVersionNotFound) ∧
      (status = 400 ↔
        err ∈ badRequest ∨
        "missing mandatory fields:".toList.isPrefixOf err.Error.toList = true ∨
        "invalid fields:".toList.isPrefixOf err.Error.toList = true) ∧
      (status = 500 ↔
        ¬ (err = .ErrDatasetNotFound ∨ err = .ErrEditionNotFound ∨
            err = .ErrVersionNotFound) ∧
        ¬ (err ∈ badRequest ∨
            "missing mandatory fields:".toList.isPrefixOf err.Error.toList = true ∨
            "invalid fields:".toList.isPrefixOf err.Error.toList = true))) ∧
    (handleVersionAPIErr .ErrVersionNotFound : Response α) = .failure .ErrVersionNotFound 404 ∧
    (handleVersionAPIErr .ErrUnableToParseJSON : Response α) =
      .failure .ErrUnableToParseJSON 400 ∧
    (handleVersionAPIErr (.other "connection refused") : Response α) =
      .failure .ErrInternalServer 500 := by
  refine ⟨?_, rfl, rfl, rfl⟩
  cases err with
  | other text =>
    have hn : ¬ (APIError.other text ∈ notFound) := by simp [notFound]
    have hb : ¬ (APIError.other text ∈ badRequest) := by simp [badRequest]
    have hi : ¬ (APIError.other text ∈ internalServerErrWithMessage) := by
      simp [internalServerErrWithMessage]
    simp only [handleVersionAPIErr, APIError.Error, hn, hb, hi, if_false, false_or]
    rcases Bool.eq_false_or_eq_true
        ("missing mandatory fields:".toList.isPrefixOf text.toList) with h1 | h1 <;>
      rcases Bool.eq_false_or_eq_true
        ("invalid fields:".toList.isPrefixOf text.toList) with h2 | h2 <;>
      simp only [h1, h2] <;> simp <;> exact ⟨_, _, ⟨rfl, rfl⟩, by decide⟩
  | ErrDatasetNotFound => exact ⟨_, _, rfl, by decide⟩
  | ErrEditionNotFound => exact ⟨_, _, rfl, by decide⟩
  | ErrVersionNotFound => exact ⟨_, _, rfl, by decide⟩
  | ErrMetadataVersionNotFound => exact ⟨_, _, rfl, by decide⟩
  | ErrUnauthorised => exact ⟨_, _, rfl, by decide⟩
  | ErrInternalServer => exact ⟨_, _, rfl, by decide⟩
  | ErrResourceState => exact ⟨_, _, rfl, by decide⟩
  | ErrUnableToParseJSON => exact ⟨_, _, rfl, by decide⟩
  | ErrEditionsNotFound => exact ⟨_, _, rfl, by decide⟩
  | ErrInstanceNotFound => exact ⟨_, _, rfl, by decide⟩
  | ErrDeletePublishedDatasetForbidden => exact ⟨_, _, rfl, by decide⟩
  | ErrAddDatasetAlreadyExists => exact ⟨_, _, rfl, by decide⟩
  | ErrDeleteDatasetNotFound => exact ⟨_, _, rfl, by decide⟩
  | ErrAddUpdateDatasetBadRequest => exact ⟨_, _, rfl, by decide⟩
  | ErrPublishedVersionCollectionIDInvalid => exact ⟨_, _, rfl, by decide⟩
  | ErrAssociatedVersionCollectionIDInvalid => exact ⟨_, _, rfl, by decide⟩
  | ErrVersionStateInvalid => exact ⟨_, _, rfl, by decide⟩

/-- C26 at the invalid-state error, which is neither a not-found nor a
bad-request error: its status is 500. -/
theorem handleVersionAPIErr_statuses_witness :
    ∃ e status, (handleVersionAPIErr .ErrResourceState : Response Unit) = .failure e status ∧
      status = 500 := by
  obtain ⟨e, status, h, _, _, _, h500⟩ :=
    (@handleVersionAPIErr_statuses Unit .ErrResourceState).1
  exact ⟨e, status, h, h500.mpr (by decide)⟩

/-- C25, as stated, fails: an error that is none of the named ones and whose
text starts with `invalid fields:` is answered by `handleVersionAPIErr` with
status 400 and its own text. -/
theorem handleVersionAPIErr_exposes_text :
    (handleVersionAPIErr (.other "invalid fields: [db.internal:27017]") : Response Unit) =
      .failure (.other "invalid fields: [db.internal:27017]") 400 := by
  decide

/-- C25, amended: for every error that is none of the named ones,
`handleDatasetAPIErr` and `handleMetadataErr` answer with the generic
internal-server error and status 500, and so does `handleVersionAPIErr` when
the text of the error starts neither with `missing mandatory fields:` nor with
`invalid fields:`; two such errors get the same response. -/
theorem collaborator_error_generic {α : Type} (text : String) :
    (handleDatasetAPIErr (.other text) : Response α) = .failure .ErrInternalServer 500 ∧
    (handleMetadataErr (.other text) : Response α) = .failure .ErrInternalServer 500 ∧
    ("missing mandatory fields:".toList.isPrefixOf text.toList = false →
      "invalid fields:".toList.isPrefixOf text.toList = false →
      (handleVersionAPIErr (.other text) : Response α) = .failure .ErrInternalServer 500) ∧
    (∀ text2 : String,
      (handleDatasetAPIErr (.other text2) : Response α) = handleDatasetAPIErr (.other text) ∧
      (handleMetadataErr (.other text2) : Response α) = handleMetadataErr (.other text) ∧
      ("missing mandatory fields:".toList.isPrefixOf text.toList = false →
        "invalid fields:".toList.isPrefixOf text.toList = false →
        "missing mandatory fields:".toList.isPrefixOf text2.toList = false →
        "invalid fields:".toList.isPrefixOf text2.toList = false →
        (handleVersionAPIErr (.other text2) : Response α) =
          handleVersionAPIErr (.other text))) := by
  have hd : ∀ t : String,
      (handleDatasetAPIErr (.other t) : Response α) = .failure .ErrInternalServer 500 := by
    intro t
    simp [handleDatasetAPIErr, datasetsForbidden, datasetsNoContent, datasetsBadRequest,
      resourcesNotFound]
  have hm : ∀ t : String,
      (handleMetadataErr (.other t) : Response α) = .failure .ErrInternalServer 500 := by
    intro t
    simp [handleMetadataErr]
  have hv : ∀ t : String, "missing mandatory fields:".toList.isPrefixOf t.toList = false →
      "invalid fields:".toList.isPrefixOf t.toList = false →
      (handleVersionAPIErr (.other t) : Response α) = .failure .ErrInternalServer 500 := by
    intro t h1 h2
    have hn : ¬ (APIError.other t ∈ notFound) := by simp [notFound]
    have hb : ¬ (APIError.other t ∈ badRequest) := by simp [badRequest]
    have hi : ¬ (APIError.other t ∈ internalServerErrWithMessage) := by
      simp [internalServerErrWithMessage]
    simp only [handleVersionAPIErr, APIError.Error, hn, hb, hi, h1, h2, if_false,
      Bool.false_eq_true]
  refine ⟨hd text, hm text, hv text, ?_⟩
  intro text2
  refine ⟨by rw [hd, hd], by rw [hm, hm], ?_⟩
  intro h1 h2 h3 h4
  rw [hv text h1 h2, hv text2 h3 h4]

/-- C25, amended, at two errors of the persistence collaborator with different
texts. -/
theorem collaborator_error_generic_witness :
    (handleVersionAPIErr (.other "connection refused") : Response Unit) =
      .failure .ErrInternalServer 500 ∧
    (handleVersionAPIErr (.other "no reachable servers") : Response Unit) =
      handleVersionAPIErr (.other "connection refused") :=
  have h := @collaborator_error_generic Unit "connection refused"
  ⟨h.2.2.1 (by decide) (by decide),
   (h.2.2.2 "no reachable servers").2.2 (by decide) (by decide) (by decide) (by decide)⟩

/-! ### Determinism of the composition -/

/-- The distribution does not depend on the public and private hrefs. -/
theorem getDistribution_cleared (d : DownloadList) :
    getDistribution (some
      { CSV := d.CSV.map clearPrivatePublic
        CSVW := d.CSVW.map clearPrivatePublic
        XLS := d.XLS.map clearPrivatePublic }) = getDistribution (some d) := by
  have h : ∀ o : Option DownloadObject, hasHRef (o.map clearPrivatePublic) = hasHRef o := by
    intro o
    cases o <;> simp [hasHRef, clearPrivatePublic]
  rw [getDistribution_some, getDistribution_some]
  simp only [h]

/-- Clearing the public and private hrefs twice is clearing them once. -/
theorem clearPrivatePublic_twice (o : Option DownloadObject) :
    (o.map clearPrivatePublic).map clearPrivatePublic = o.map clearPrivatePublic := by
  cases o <;> simp [clearPrivatePublic]

/-- C28: `CreateMetaDataDoc` is a function of the dataset variant, the version
and the URL builder alone: calls with equal inputs give equal results, and a
second call on the version document as the first call left it, its download
entries cleared in place, gives the result of the first. -/
theorem CreateMetaDataDoc_deterministic (datasetDoc : Option Dataset)
    (versionDoc : Version) (urlBuilder : Builder) :
    (∀ (datasetDoc2 : Option Dataset) (versionDoc2 : Version) (urlBuilder2 : Builder),
      datasetDoc2 = datasetDoc → versionDoc2 = versionDoc → urlBuilder2 = urlBuilder →
      CreateMetaDataDoc datasetDoc2 (some versionDoc2) urlBuilder2 =
        CreateMetaDataDoc datasetDoc (some versionDoc) urlBuilder) ∧
    CreateMetaDataDoc datasetDoc (some (versionDocAfterCreateMetaDataDoc versionDoc))
        urlBuilder =
      CreateMetaDataDoc datasetDoc (some versionDoc) urlBuilder := by
  constructor
  · intro d2 v2 b2 hd hv hb
    rw [hd, hv, hb]
  · cases datasetDoc with
    | none => rfl
    | some dd =>
      unfold CreateMetaDataDoc versionDocAfterCreateMetaDataDoc
      simp only
      cases hdl : versionDoc.Downloads with
      | none => rfl
      | some d =>
        simp only [getDistribution_cleared, clearPrivatePublic_twice]

/-- C28 at the sample documents: the second call on the cleared version
returns the sample Metadata again. -/
theorem CreateMetaDataDoc_deterministic_witness :
    CreateMetaDataDoc (some sampleCurrent)
        (some (versionDocAfterCreateMetaDataDoc sampleVersion)) sampleBuilder =
      .ok sampleMetadata ∧
    CreateMetaDataDoc (some sampleCurrent) (some sampleVersion) (NewBuilder "localhost:20000") =
      .ok sampleMetadata :=
  have h := CreateMetaDataDoc_deterministic (some sampleCurrent) sampleVersion sampleBuilder
  ⟨h.2.trans rfl, (h.1 _ _ _ rfl rfl rfl).trans rfl⟩

/-! ### Edition selectors -/

/-- The fields of an edition variant by path. -/
theorem Edition_field_paths (n : DatasetAPI.Edition) (id label state : String) :
    (n.field "links.dataset.id" = some (.str id) ↔
      (n.Links.bind (fun l => l.Dataset)).map (fun l => l.ID) = some id) ∧
    (n.field "edition" = some (.str label) ↔ n.Edition = label) ∧
    (n.field "state" = some (.str state) ↔ n.State = state) := by
  refine ⟨?_, ?_, ?_⟩
  · have h : n.field "links.dataset.id" =
        (n.Links.bind (fun l => l.Dataset)).map (fun l => Scalar.str l.ID) := by
      simp [Edition.field]
    rw [h, link_id_eq]
  · simp [Edition.field]
  · simp [Edition.field]

/-- The fields of an edition document by path, through its variants. -/
theorem EditionUpdate_field_paths (e : EditionUpdate) :
    e.field "current.links.dataset.id" = e.Current.bind (fun c => c.field "links.dataset.id") ∧
    e.field "current.edition" = e.Current.bind (fun c => c.field "edition") ∧
    e.field "current.state" = e.Current.bind (fun c => c.field "state") ∧
    e.field "next.links.dataset.id" = e.Next.bind (fun n => n.field "links.dataset.id") ∧
    e.field "next.edition" = e.Next.bind (fun n => n.field "edition") := by
  refine ⟨?_, ?_, ?_, ?_, ?_⟩ <;> simp [EditionUpdate.field]

/-- What the selector of the edition list asks of an edition document: the
dataset id of its `next` variant for the empty state, the dataset id and state
of its `current` variant otherwise. -/
theorem satisfies_buildEditionsQuery (e : EditionUpdate) (id state : String) :
    satisfies e.field (buildEditionsQuery id state) = true ↔
      if state = "" then
        ∃ n, e.Next = some n ∧
          (n.Links.bind (fun l => l.Dataset)).map (fun l => l.ID) = some id
      else
        ∃ c, e.Current = some c ∧
          (c.Links.bind (fun l => l.Dataset)).map (fun l => l.ID) = some id ∧
          c.State = state := by
  obtain ⟨h1, -, h3, h4, -⟩ := EditionUpdate_field_paths e
  by_cases hs : state = ""
  · subst hs
    simp only [buildEditionsQuery, bne_self_eq_false, Bool.false_eq_true, if_false, if_true,
      satisfies_cons, satisfies_nil, Bool.and_true, satisfiesEntry_scalar, h4]
    cases hn : e.Next with
    | none => simp
    | some n => simp [(Edition_field_paths n id "" "").1]
  · have hne : (state != "") = true := by simpa using hs
    simp only [buildEditionsQuery, hne, if_true, hs, if_false, satisfies_cons, satisfies_nil,
      Bool.and_true, Bool.and_eq_true, satisfiesEntry_scalar, h1, h3]
    cases hc : e.Current with
    | none => simp
    | some c =>
      simp [(Edition_field_paths c id "" state).1, (Edition_field_paths c id "" state).2.2]

/-- What the selector of one edition asks of an edition document: dataset id
and label of its `next` variant for the empty state, dataset id, label and
state of its `current` variant otherwise. -/
theorem satisfies_buildEditionQuery (e : EditionUpdate) (id label state : String) :
    satisfies e.field (buildEditionQuery id label state) = true ↔
      if state = "" then
        ∃ n, e.Next = some n ∧
          (n.Links.bind (fun l => l.Dataset)).map (fun l => l.ID) = some id ∧
          n.Edition = label
      else
        ∃ c, e.Current = some c ∧
          (c.Links.bind (fun l => l.Dataset)).map (fun l => l.ID) = some id ∧
          c.Edition = label ∧ c.State = state := by
  obtain ⟨h1, h2, h3, h4, h5⟩ := EditionUpdate_field_paths e
  by_cases hs : state = ""
  · subst hs
    simp only [buildEditionQuery, bne_self_eq_false, Bool.false_eq_true, if_false, if_true,
      satisfies_cons, satisfies_nil, Bool.and_true, Bool.and_eq_true, satisfiesEntry_scalar,
      h4, h5]
    cases hn : e.Next with
    | none => simp
    | some n =>
      simp [(Edition_field_paths n id label "").1, (Edition_field_paths n id label "").2.1]
  · have hne : (state != "") = true := by simpa using hs
    simp only [buildEditionQuery, hne, if_true, hs, if_false, satisfies_cons, satisfies_nil,
      Bool.and_true, Bool.and_eq_true, satisfiesEntry_scalar, h1, h2, h3]
    cases hc : e.Current with
    | none => simp
    | some c =>
      simp [(Edition_field_paths c id label state).1, (Edition_field_paths c id label state).2.1,
        (Edition_field_paths c id label state).2.2]

/-- C29: `buildEditionsQuery` constrains `next.links.dataset.id` alone for the
empty state and `current.links.dataset.id` with `current.state = state`
otherwise, the variant `buildEditionQuery` constrains; an edition document
satisfies the list predicate if and only if it satisfies the get predicate for
the edition label of that variant, and a document satisfying the get predicate
for any label satisfies the list predicate. -/
theorem edition_predicates_agree (id state : String) :
    (state = "" →
      buildEditionsQuery id state = [("next.links.dataset.id", .scalar (.str id))]) ∧
    (state ≠ "" →
      buildEditionsQuery id state =
        [("current.links.dataset.id", .scalar (.str id)),
         ("current.state", .scalar (.str state))]) ∧
    (∀ (e : EditionUpdate) (variant : Edition),
      (if state = "" then e.Next else e.Current) = some variant →
      (satisfies e.field (buildEditionsQuery id state) = true ↔
        satisfies e.field (buildEditionQuery id variant.Edition state) = true)) ∧
    (∀ (e : EditionUpdate) (label : String),
      satisfies e.field (buildEditionQuery id label state) = true →
      satisfies e.field (buildEditionsQuery id state) = true) := by
  refine ⟨?_, ?_, ?_, ?_⟩
  · intro hs
    simp [buildEditionsQuery, hs]
  · intro hs
    simp [buildEditionsQuery, hs]
  · intro e variant hv
    rw [satisfies_buildEditionsQuery, satisfies_buildEditionQuery]
    by_cases hs : state = ""
    · simp only [hs, if_true] at hv ⊢
      simp [hv]
    · simp only [hs, if_false] at hv ⊢
      simp [hv]
  · intro e label h
    rw [satisfies_buildEditionQuery] at h
    rw [satisfies_buildEditionsQuery]
    by_cases hs : state = ""
    · simp only [hs, if_true] at h ⊢
      obtain ⟨n, hn, hid, _⟩ := h
      exact ⟨n, hn, hid⟩
    · simp only [hs, if_false] at h ⊢
      obtain ⟨c, hc, hid, _, hst⟩ := h
      exact ⟨c, hc, hid, hst⟩

/-- C29 at the sample edition 2017 of dataset `123`, for the empty and the
published state. -/
theorem edition_predicates_agree_witness :
    satisfies sampleEditionUpdate.field (buildEditionQuery "123" "2017" "") = true ∧
    satisfies sampleEditionUpdate.field (buildEditionQuery "123" "2017" "published") = true :=
  ⟨((edition_predicates_agree "123" "").2.2.1 sampleEditionUpdate
      { Edition := "2017", Links := some { Dataset := some { ID := "123" } },
        State := "published" } rfl).mp (by decide),
   ((edition_predicates_agree "123" "published").2.2.1 sampleEditionUpdate
      { Edition := "2017", Links := some { Dataset := some { ID := "123" } },
        State := "published" } rfl).mp (by decide)⟩

/-! ### What the handlers answer with -/

/-- C22, as stated, fails: the served store and the store after an edit of the
draft differ only in the `next` variant of dataset `123`, and `getDataset`
answers the request for dataset `123` with different documents, each carrying
the `next` variant of its store. -/
theorem getDataset_exposes_next :
    servedMongoEdited.datasets.map (fun d => (d.ID, d.Current)) =
      servedMongo.datasets.map (fun d => (d.ID, d.Current)) ∧
    servedMongoEdited.editions = servedMongo.editions ∧
    servedMongoEdited.instances = servedMongo.instances ∧
    (∃ body edited,
      getDataset (servedMongo.API sampleBuilder) "123" = .ok (.ok body) ∧
      getDataset (servedMongoEdited.API sampleBuilder) "123" = .ok (.ok edited) ∧
      body ≠ edited ∧
      body.Next = some sampleNext ∧
      edited.Next = some { sampleNext with Title := "Census 2011 - second draft" }) :=
  ⟨rfl, rfl, rfl, _, _, rfl, rfl, by decide, rfl, rfl⟩

/-- C22, amended: `getDataset` writes the dataset document the store returns
for the id, and `getEdition`, once the dataset exists, the edition document
the store returns for the empty state, each whole, with its `current` and
`next` variants as stored; over the Mongo store the responses are the same
for two stores with the same dataset and edition documents. -/
theorem handlers_write_stored_document :
    (∀ (api : FTBDatasetAPI) (datasetID : String) (doc : DatasetUpdate),
      api.dataStore.Backend.GetDataset datasetID = .ok doc →
      getDataset api datasetID = .ok (.ok doc)) ∧
    (∀ (api : FTBDatasetAPI) (datasetID edition : String) (doc : EditionUpdate),
      api.dataStore.Backend.CheckDatasetExists datasetID "" = none →
      api.dataStore.Backend.GetEdition datasetID edition "" = .ok doc →
      getEdition api datasetID edition = .ok (.ok doc)) ∧
    (∀ (m m2 : Mongo) (urlBuilder : Builder) (datasetID edition : String),
      m.datasets = m2.datasets → m.editions = m2.editions → m.failure = m2.failure →
      getDataset (m.API urlBuilder) datasetID = getDataset (m2.API urlBuilder) datasetID ∧
      getEdition (m.API urlBuilder) datasetID edition =
        getEdition (m2.API urlBuilder) datasetID edition) := by
  refine ⟨?_, ?_, ?_⟩
  · intro api datasetID doc h
    simp only [getDataset, h]
  · intro api datasetID edition doc hd he
    simp only [getEdition, hd, he]
  · intro m m2 urlBuilder datasetID edition hd he hf
    simp only [getDataset, getEdition, Mongo.API, Mongo.Backend, Mongo.GetDataset,
      Mongo.GetEdition, Mongo.CheckDatasetExists, Mongo.findOne, Mongo.findCount, hd, he, hf,
      and_self]

/-- C22, amended, at the served store: the response to the request for dataset
`123` is the stored document with both variants. -/
theorem handlers_write_stored_document_witness :
    getDataset (servedMongo.API sampleBuilder) "123" = .ok (.ok sampleDatasetUpdate) ∧
    getEdition (servedMongo.API sampleBuilder) "123" "2017" = .ok (.ok sampleEditionUpdate) :=
  ⟨handlers_write_stored_document.1 (servedMongo.API sampleBuilder) "123"
      sampleDatasetUpdate rfl,
   handlers_write_stored_document.2.1 (servedMongo.API sampleBuilder) "123" "2017"
      sampleEditionUpdate rfl rfl⟩

/-! ### Ancestor checks -/

/-- C23, as stated, fails for `getMetadata`: the served store has no dataset
`999`, and the request for its metadata is answered with the metadata
version-not-found error, not the dataset-level one; with a stray version of
that dataset in the store and the same dataset documents the answer changes to
the dataset-level error, so the version query is made first. -/
theorem getMetadata_queries_version_first :
    servedMongo.CheckDatasetExists "999" "" = some .ErrDatasetNotFound ∧
    getMetadata (servedMongo.API sampleBuilder) "999" "2017" "1" =
      .ok (.failure .ErrMetadataVersionNotFound 404) ∧
    strayVersionMongo.datasets = servedMongo.datasets ∧
    getMetadata (strayVersionMongo.API sampleBuilder) "999" "2017" "1" =
      .ok (.failure .ErrDatasetNotFound 404) :=
  ⟨rfl, rfl, rfl, rfl⟩

/-- C23, amended: in `getEditions`, `getEdition`, `getVersions` and
`getVersion` a missing dataset is answered with the dataset-level not-found
error whatever the other queries would return, and with the dataset present a
missing edition is answered with the edition-level not-found error whatever
the version query would return; `getMetadata` fetches the version first and
answers a missing version with the metadata version-not-found error, then a
missing dataset with the dataset-level error, then a missing edition with the
edition-level error. -/
theorem ancestor_checks (api : FTBDatasetAPI) (datasetID edition version : String) :
    (api.dataStore.Backend.CheckDatasetExists datasetID "" = some .ErrDatasetNotFound →
      getEditions api datasetID = .ok (.failure .ErrDatasetNotFound 404) ∧
      getEdition api datasetID edition = .ok (.failure .ErrDatasetNotFound 404) ∧
      getVersions api datasetID edition = .ok (.failure .ErrDatasetNotFound 404) ∧
      getVersion api datasetID edition version = .ok (.failure .ErrDatasetNotFound 404)) ∧
    (api.dataStore.Backend.CheckDatasetExists datasetID "" = none →
      (api.dataStore.Backend.GetEditions datasetID "" = .error .ErrEditionNotFound →
        getEditions api datasetID = .ok (.failure .ErrEditionNotFound 404)) ∧
      (api.dataStore.Backend.GetEdition datasetID edition "" = .error .ErrEditionNotFound →
        getEdition api datasetID edition = .ok (.failure .ErrEditionNotFound 404)) ∧
      (api.dataStore.Backend.CheckEditionExists datasetID edition "" =
          some .ErrEditionNotFound →
        getVersions api datasetID edition = .ok (.failure .ErrEditionNotFound 404) ∧
        getVersion api datasetID edition version =
          .ok (.failure .ErrEditionNotFound 404))) ∧
    (api.dataStore.Backend.GetVersion datasetID edition version "" =
        .error .ErrVersionNotFound →
      getMetadata api datasetID edition version =
        .ok (.failure .ErrMetadataVersionNotFound 404)) ∧
    (∀ versionDoc,
      api.dataStore.Backend.GetVersion datasetID edition version "" = .ok versionDoc →
      (api.dataStore.Backend.GetDataset datasetID = .error .ErrDatasetNotFound →
        getMetadata api datasetID edition version =
          .ok (.failure .ErrDatasetNotFound 404)) ∧
      (∀ datasetDoc, api.dataStore.Backend.GetDataset datasetID = .ok datasetDoc →
        api.dataStore.Backend.CheckEditionExists datasetID edition "" =
          some .ErrEditionNotFound →
        getMetadata api datasetID edition version =
          .ok (.failure .ErrEditionNotFound 404))) := by
  refine ⟨?_, ?_, ?_, ?_⟩
  · intro hd
    refine ⟨?_, ?_, ?_, ?_⟩
    · simp only [getEditions, hd, if_true]
    · simp only [getEdition, hd, if_true]
    · simp only [getVersions, hd]
      rfl
    · simp only [getVersion, hd]
      rfl
  · intro hd
    refine ⟨?_, ?_, ?_⟩
    · intro he
      simp only [getEditions, hd, he, if_true]
    · intro he
      simp only [getEdition, hd, he, if_true]
    · intro he
      constructor
      · simp only [getVersions, hd, he]
        rfl
      · simp only [getVersion, hd, he]
        rfl
  · intro hv
    simp only [getMetadata, hv, if_true]
    rfl
  · intro versionDoc hv
    constructor
    · intro hd
      simp only [getMetadata, hv, hd]
      rfl
    · intro datasetDoc hd he
      simp only [getMetadata, hv, hd, he]
      rfl

/-- C23, amended, at the served store: dataset `999` is missing, edition 2018
of dataset `123` is missing. -/
theorem ancestor_checks_witness :
    getVersion (servedMongo.API sampleBuilder) "999" "2017" "1" =
      .ok (.failure .ErrDatasetNotFound 404) ∧
    getVersions (servedMongo.API sampleBuilder) "123" "2018" =
      .ok (.failure .ErrEditionNotFound 404) :=
  ⟨((ancestor_checks (servedMongo.API sampleBuilder) "999" "2017" "1").1 rfl).2.2.2,
   ((ancestor_checks (servedMongo.API sampleBuilder) "123" "2018" "1").2.1 rfl).2.2 rfl |>.1⟩

/-! ### Version path segments -/

/-- The error of `Atoi` is none of the named errors and its text starts with
`strconv.Atoi: parsing `. -/
theorem Atoi_error {s : String} {err : APIError} (h : Atoi s = .error err) :
    ∃ rest, err = .other ("strconv.Atoi: parsing " ++ rest) := by
  unfold Atoi at h
  simp only at h
  repeat' split at h
  all_goals first
    | (cases h; exact ⟨_, rfl⟩)
    | cases h

/-- The version handlers answer the error of `Atoi` with the generic
internal-server error and status 500. -/
theorem handleVersionAPIErr_Atoi {α : Type} (rest : String) :
    (handleVersionAPIErr (.other ("strconv.Atoi: parsing " ++ rest)) : Response α) =
      .failure .ErrInternalServer 500 := by
  have hn : ¬ (APIError.other ("strconv.Atoi: parsing " ++ rest) ∈ notFound) := by
    simp [notFound]
  have hb : ¬ (APIError.other ("strconv.Atoi: parsing " ++ rest) ∈ badRequest) := by
    simp [badRequest]
  have hi : ¬ (APIError.other ("strconv.Atoi: parsing " ++ rest) ∈
      internalServerErrWithMessage) := by
    simp [internalServerErrWithMessage]
  have hd : ("strconv.Atoi: parsing " ++ rest).toList =
      's' :: ("trconv.Atoi: parsing ".toList ++ rest.toList) := by
    simp only [String.toList, String.data_append]
    rfl
  have hm : "missing mandatory fields:".toList = 'm' :: "issing mandatory fields:".toList := rfl
  have hv : "invalid fields:".toList = 'i' :: "nvalid fields:".toList := rfl
  have h1 : "missing mandatory fields:".toList.isPrefixOf
      ("strconv.Atoi: parsing " ++ rest).toList = false := by
    rw [hd, hm]
    simp [List.isPrefixOf]
  have h2 : "invalid fields:".toList.isPrefixOf
      ("strconv.Atoi: parsing " ++ rest).toList = false := by
    rw [hd, hv]
    simp [List.isPrefixOf]
  simp only [handleVersionAPIErr, APIError.Error, hn, hb, hi, h1, h2, if_false,
    Bool.false_eq_true]

/-- C24, as stated, fails: the segments `0` and `-1` parse, and the store is
asked for version 0, which the served store does not have: the answer is the
version-not-found error with status 404; the segment `abc` is answered with the
generic internal-server error and status 500, not with a client error. -/
theorem getVersion_malformed_segment :
    Atoi "0" = .ok 0 ∧ Atoi "-1" = .ok (-1) ∧
    servedMongo.GetVersion "123" "2017" "0" "" = .error .ErrVersionNotFound ∧
    getVersion (servedMongo.API sampleBuilder) "123" "2017" "0" =
      .ok (.failure .ErrVersionNotFound 404) ∧
    getVersion (servedMongo.API sampleBuilder) "123" "2017" "abc" =
      .ok (.failure .ErrInternalServer 500) :=
  ⟨rfl, rfl, rfl, rfl, rfl⟩

/-- C24, amended: for every version path segment `strconv.Atoi` rejects, the
empty string and non-numeric text among them, `GetVersion` fails with the error
of `Atoi` whatever the store holds, and `getVersion`, the dataset and edition
present, answers with the generic internal-server error and status 500; a
segment that parses is looked up in the store by its number. -/
theorem GetVersion_rejected_segment (versionID : String) :
    (∀ err, Atoi versionID = .error err →
      (∀ (m : Mongo) (id editionID state : String),
        m.GetVersion id editionID versionID state = .error err) ∧
      (∀ (m : Mongo) (urlBuilder : Builder) (id editionID : String),
        m.CheckDatasetExists id "" = none → m.CheckEditionExists id editionID "" = none →
        getVersion (m.API urlBuilder) id editionID versionID =
          .ok (.failure .ErrInternalServer 500))) ∧
    (∀ n, Atoi versionID = .ok n →
      ∀ (m : Mongo) (id editionID state : String),
        m.GetVersion id editionID versionID state =
          match m.findOne m.instances Version.field
              (buildVersionQuery id editionID state n) with
          | .error .ErrNotFound => .error .ErrVersionNotFound
          | .error err => .error err.asError
          | .ok version => .ok version) ∧
    (∃ err, Atoi "" = .error err) ∧ (∃ err, Atoi "abc" = .error err) ∧
    (∃ err, Atoi "1.5" = .error err) := by
  refine ⟨?_, ?_, ⟨_, rfl⟩, ⟨_, rfl⟩, ⟨_, rfl⟩⟩
  · intro err herr
    have hget : ∀ (m : Mongo) (id editionID state : String),
        m.GetVersion id editionID versionID state = .error err := by
      intro m id editionID state
      simp only [Mongo.GetVersion, herr]
    refine ⟨hget, ?_⟩
    intro m urlBuilder id editionID hd he
    obtain ⟨rest, hrest⟩ := Atoi_error herr
    have hg := hget m id editionID ""
    simp only [getVersion, Mongo.API, Mongo.Backend, hd, he, hg, hrest,
      handleVersionAPIErr_Atoi]
  · intro n hn m id editionID state
    simp only [Mongo.GetVersion, hn]

/-- C24, amended, at the segment `abc` on the served store. -/
theorem GetVersion_rejected_segment_witness :
    getVersion (servedMongo.API sampleBuilder) "123" "2017" "abc" =
      .ok (.failure .ErrInternalServer 500) :=
  ((GetVersion_rejected_segment "abc").1 _ rfl).2 servedMongo sampleBuilder "123" "2017" rfl rfl

/-! ### The self link of a version -/

/-- An item whose self link could be rewritten is the stored item with the
href of its version link as the href of its self link. -/
theorem rewriteSelfLink_ok {stored item : DatasetAPI.Version}
    (h : rewriteSelfLink stored = .ok item) :
    ∃ links self versionLink, stored.Links = some links ∧ links.Self = some self ∧
      links.Version = some versionLink ∧
      item = { stored with
                 Links := some { links with Self := some { self with HRef := versionLink.HRef } } } := by
  unfold rewriteSelfLink at h
  split at h
  · cases h
  · rename_i links hl
    split at h
    · rename_i self versionLink hs hv
      cases h
      exact ⟨links, self, versionLink, hl, hs, hv, rfl⟩
    · cases h

/-- The rewrite of an item succeeds when its links, its self link and its
version link are present. -/
theorem rewriteSelfLink_of_links {stored : DatasetAPI.Version} {links : VersionLinks}
    {self versionLink : LinkObject} (hl : stored.Links = some links)
    (hs : links.Self = some self) (hv : links.Version = some versionLink) :
    ∃ item, rewriteSelfLink stored = .ok item := by
  unfold rewriteSelfLink
  simp [hl, hs, hv]

/-- The rewritten list, when there is one, has the stored items in their order
and number, each with its self link rewritten. -/
theorem rewriteSelfLinks_ok {stored items : List DatasetAPI.Version}
    (h : rewriteSelfLinks stored = .ok items) :
    List.Forall₂ (fun s item => rewriteSelfLink s = .ok item) stored items := by
  induction stored generalizing items with
  | nil =>
    simp only [rewriteSelfLinks] at h
    cases h
    exact List.Forall₂.nil
  | cons s rest ih =>
    simp only [rewriteSelfLinks] at h
    split at h
    · cases h
    · rename_i item hitem
      split at h
      · cases h
      · rename_i rest2 hrest
        cases h
        exact List.Forall₂.cons hitem (ih hrest)

/-- The rewrite of a list succeeds when the rewrite of each item does. -/
theorem rewriteSelfLinks_of_all {stored : List DatasetAPI.Version}
    (h : ∀ s ∈ stored, ∃ item, rewriteSelfLink s = .ok item) :
    ∃ items, rewriteSelfLinks stored = .ok items := by
  induction stored with
  | nil => exact ⟨[], rfl⟩
  | cons s rest ih =>
    obtain ⟨item, hitem⟩ := h s (List.mem_cons_self _ _)
    obtain ⟨items, hitems⟩ := ih (fun s2 hs2 => h s2 (List.mem_cons_of_mem _ hs2))
    exact ⟨item :: items, by simp only [rewriteSelfLinks, hitem, hitems]⟩

/-- Every item of the second of two related lists is related to an item of
the first. -/
theorem forall₂_exists_left {α β : Type} {R : α → β → Prop} {l₁ : List α} {l₂ : List β}
    (h : List.Forall₂ R l₁ l₂) : ∀ b ∈ l₂, ∃ a ∈ l₁, R a b := by
  induction h with
  | nil =>
    intro b hb
    cases hb
  | cons hab _ ih =>
    intro b hb
    rcases List.mem_cons.mp hb with hb | hb
    · subst hb
      exact ⟨_, List.mem_cons_self _ _, hab⟩
    · obtain ⟨a, ha, hr⟩ := ih b hb
      exact ⟨a, List.mem_cons_of_mem _ ha, hr⟩

/-- A version `getVersion` writes is the version the store returned, with its
self link rewritten, and its state passed validation. -/
theorem getVersion_ok_inv {api : FTBDatasetAPI} {datasetID edition version : String}
    {body : DatasetAPI.Version}
    (h : getVersion api datasetID edition version = .ok (.ok body)) :
    ∃ stored, api.dataStore.Backend.GetVersion datasetID edition version "" = .ok stored ∧
      rewriteSelfLink stored = .ok body := by
  unfold getVersion at h
  simp only at h
  split at h
  · simp [handleVersionAPIErr] at h
    repeat' split at h
    all_goals cases h
  · split at h
    · simp [handleVersionAPIErr] at h
      repeat' split at h
      all_goals cases h
    · split at h
      · simp [handleVersionAPIErr] at h
        repeat' split at h
        all_goals cases h
      · rename_i stored hstored
        refine ⟨stored, hstored, ?_⟩
        split at h
        · cases h
        · rename_i links hl
          split at h
          · rename_i self versionLink hs hv
            split at h
            · simp [handleVersionAPIErr_ErrResourceState] at h
            · simp only [Except.ok.injEq, Response.ok.injEq] at h
              subst h
              simp only [rewriteSelfLink, hl, hs, hv]
          · cases h

/-- C27: in a working store whose version-list query has a non-empty result,
`GetVersions` returns a list when every found document has its links, self link
and version link; the list it returns has the found documents in their order
and number, each as stored but for the href of its self link, which is the href
of its version link; the version `getVersion` writes is the version the store
returned, rewritten in the same way. -/
theorem GetVersions_self_links (m : Mongo) (id editionID state : String)
    (hf : m.failure = none)
    (hne : m.instances.filter
      (fun d => satisfies d.field (buildVersionsQuery id editionID state)) ≠ []) :
    ((∀ stored ∈ m.instances.filter
          (fun d => satisfies d.field (buildVersionsQuery id editionID state)),
        ∃ links self versionLink, stored.Links = some links ∧ links.Self = some self ∧
          links.Version = some versionLink) →
      ∃ results, m.GetVersions id editionID state = .ok (.ok results)) ∧
    (∀ results, m.GetVersions id editionID state = .ok (.ok results) →
      List.Forall₂
        (fun stored item =>
          ∃ links self versionLink, stored.Links = some links ∧ links.Self = some self ∧
            links.Version = some versionLink ∧
            item = { stored with
                       Links := some
                         { links with Self := some { self with HRef := versionLink.HRef } } })
        (m.instances.filter (fun d => satisfies d.field (buildVersionsQuery id editionID state)))
        results.Items ∧
      results.Items.length =
        (m.instances.filter
          (fun d => satisfies d.field (buildVersionsQuery id editionID state))).length ∧
      ∀ item ∈ results.Items,
        ∃ links self versionLink, item.Links = some links ∧ links.Self = some self ∧
          links.Version = some versionLink ∧ self.HRef = versionLink.HRef) ∧
    (∀ (api : FTBDatasetAPI) (datasetID edition version : String) (body : DatasetAPI.Version),
      getVersion api datasetID edition version = .ok (.ok body) →
      ∃ stored links self versionLink,
        api.dataStore.Backend.GetVersion datasetID edition version "" = .ok stored ∧
        stored.Links = some links ∧ links.Self = some self ∧
        links.Version = some versionLink ∧
        body = { stored with
                   Links := some
                     { links with Self := some { self with HRef := versionLink.HRef } } }) := by
  generalize hfound : m.instances.filter
    (fun d => satisfies d.field (buildVersionsQuery id editionID state)) = found at hne ⊢
  have hlen : ¬ found.length < 1 := by
    cases found with
    | nil => exact absurd rfl hne
    | cons a l => simp
  have hget : m.GetVersions id editionID state =
      match rewriteSelfLinks found with
      | .error p => .error p
      | .ok results => .ok (.ok { Items := results }) := by
    simp only [Mongo.GetVersions, Mongo.findAll, hf, hfound, hlen, if_false]
  refine ⟨?_, ?_, ?_⟩
  · intro hlinks
    obtain ⟨items, hitems⟩ := @rewriteSelfLinks_of_all found (by
      intro stored hs
      obtain ⟨links, self, versionLink, hl, hsf, hv⟩ := hlinks stored hs
      exact rewriteSelfLink_of_links hl hsf hv)
    exact ⟨{ Items := items }, by rw [hget, hitems]⟩
  · intro results hres
    rw [hget] at hres
    cases hrw : rewriteSelfLinks found with
    | error p =>
      rw [hrw] at hres
      cases hres
    | ok items =>
      rw [hrw] at hres
      simp only [Except.ok.injEq] at hres
      subst hres
      have hall := rewriteSelfLinks_ok hrw
      have hrel : List.Forall₂
          (fun stored item =>
            ∃ links self versionLink, stored.Links = some links ∧ links.Self = some self ∧
              links.Version = some versionLink ∧
              item = { stored with
                         Links := some
                           { links with Self := some { self with HRef := versionLink.HRef } } })
          found items :=
        hall.imp (fun _ _ h => rewriteSelfLink_ok h)
      refine ⟨hrel, hrel.length_eq.symm, ?_⟩
      intro item hitem
      obtain ⟨stored, _, links, self, versionLink, _, _, hv, hitemeq⟩ :=
        forall₂_exists_left hrel item hitem
      subst hitemeq
      exact ⟨_, _, versionLink, rfl, rfl, hv, rfl⟩
  · intro api datasetID edition version body hbody
    obtain ⟨stored, hstored, hrw⟩ := getVersion_ok_inv hbody
    obtain ⟨links, self, versionLink, hl, hs, hv, hb⟩ := rewriteSelfLink_ok hrw
    exact ⟨stored, links, self, versionLink, hstored, hl, hs, hv, hb⟩

/-- C27 at the served store: the list for edition 2017 of dataset `123` is
returned, and the self link of each item has the href of its version link. -/
theorem GetVersions_self_links_witness :
    ∃ results, servedMongo.GetVersions "123" "2017" "" = .ok (.ok results) ∧
      results.Items.length = 1 ∧
      ∀ item ∈ results.Items,
        ∃ links self versionLink, item.Links = some links ∧ links.Self = some self ∧
          links.Version = some versionLink ∧ self.HRef = versionLink.HRef :=
  have h := (GetVersions_self_links servedMongo "123" "2017" "" rfl (by decide)).2.1 _ rfl
  ⟨_, rfl, h.2.1.trans (by decide), h.2.2⟩

/-! ### Batches of dimension options -/

/-- Once `options` holds 500 entries or more, no step of the loop finds it with
exactly 500 entries: when every option can be built, the loop makes no call and
ends with the built options appended to `options`. -/
theorem insertOptionsLoop_no_call
    (bulkInsert : List (Option DimensionOption) → Option APIError)
    (build : Nat → String → Except Panic DimensionOption)
    (hbuild : ∀ i option, ∃ d, build i option = .ok d) :
    ∀ (codes : List String) (i : Nat) (options : List (Option DimensionOption))
      (calls : List (List (Option DimensionOption))),
      500 ≤ options.length →
      ∃ built : List DimensionOption, built.length = codes.length ∧
        insertOptionsLoop bulkInsert build i codes options calls =
          .ok (calls, options ++ built.map some, none) := by
  intro codes
  induction codes with
  | nil =>
    intro i options calls _
    exact ⟨[], rfl, by simp [insertOptionsLoop]⟩
  | cons option codes ih =>
    intro i options calls hlen
    obtain ⟨d, hd⟩ := hbuild i option
    have hlen2 : 500 ≤ (options ++ [some d]).length := by
      rw [List.length_append]
      omega
    obtain ⟨built, hbl, hloop⟩ := ih (i + 1) (options ++ [some d]) calls hlen2
    have hne : ((options ++ [some d]).length == 500) = false := by
      rw [List.length_append, List.length_singleton]
      simp
      omega
    refine ⟨d :: built, by simp [hbl], ?_⟩
    simp only [insertOptionsLoop, hd, hne, Bool.false_eq_true, if_false, hloop]
    simp

/-- Without labels, every option of a dimension can be built. -/
theorem buildDimensionOption_ok (codeListURL datasetAPIURL datasetID edition versionID : String)
    (now : Nat → Nat) (dimension : FTBDimension) (hlabels : dimension.Labels = [])
    (i : Nat) (option : String) :
    ∃ d, buildDimensionOption codeListURL datasetAPIURL datasetID edition versionID now
      dimension i option = .ok d := by
  simp [buildDimensionOption, hlabels]

/-- For a dimension without labels, the insertion makes exactly one call of
`BulkInsertDimensionOptions`: its argument is the 500 nil entries `options`
starts with, followed by one document per code. -/
theorem insertDimensionOptions_one_call
    (bulkInsert : List (Option DimensionOption) → Option APIError)
    (codeListURL datasetAPIURL datasetID edition versionID : String) (now : Nat → Nat)
    (dimension : FTBDimension) (hlabels : dimension.Labels = []) :
    ∃ built : List DimensionOption, built.length = dimension.Codes.length ∧
      insertDimensionOptions bulkInsert codeListURL datasetAPIURL datasetID edition versionID
          now dimension =
        .ok ([List.replicate 500 none ++ built.map some],
          bulkInsert (List.replicate 500 none ++ built.map some)) := by
  obtain ⟨built, hbl, hloop⟩ := insertOptionsLoop_no_call bulkInsert
    (buildDimensionOption codeListURL datasetAPIURL datasetID edition versionID now dimension)
    (buildDimensionOption_ok codeListURL datasetAPIURL datasetID edition versionID now
      dimension hlabels)
    dimension.Codes 0 (List.replicate 500 none) [] (le_of_eq (List.length_replicate _ _).symm)
  refine ⟨built, hbl, ?_⟩
  have hlen : ((List.replicate 500 (none : Option DimensionOption) ++ built.map some).length
      != 0) = true := by
    simp only [bne_iff_ne, ne_eq, List.length_append, List.length_replicate]
    omega
  simp only [insertDimensionOptions, hloop, hlen, if_true, List.nil_append]
  cases bulkInsert (List.replicate 500 none ++ built.map some) <;> rfl

/-- C30: for the sample dimension with its two codes, the insertion makes one
call of `BulkInsertDimensionOptions` with 502 entries, more than 500, of which
the first 500 are nil and the last two are the documents of the codes. -/
theorem insertDimensionOptions_oversized_batch :
    ∃ (batch : List (Option DimensionOption)) (built : List DimensionOption),
      insertDimensionOptions acceptBulkInsert "http://localhost:22400" "http://localhost:10400"
          "People" "2011" "v-1" (fun _ => 0) sampleDimension = .ok ([batch], none) ∧
      batch = List.replicate 500 none ++ built.map some ∧
      built.length = 2 ∧ batch.length = 502 ∧ 500 < batch.length ∧ none ∈ batch := by
  obtain ⟨built, hbl, hres⟩ := insertDimensionOptions_one_call acceptBulkInsert
    "http://localhost:22400" "http://localhost:10400" "People" "2011" "v-1" (fun _ => 0)
    sampleDimension rfl
  have hl : built.length = 2 := hbl
  have hlen : (List.replicate 500 (none : Option DimensionOption) ++ built.map some).length =
      502 := by
    rw [List.length_append, List.length_replicate, List.length_map, hl]
  refine ⟨_, built, hres, rfl, hl, hlen, ?_, ?_⟩
  · rw [hlen]
    decide
  · exact List.mem_append_left _ (List.mem_replicate.mpr ⟨by decide, rfl⟩)

end DatasetAPI
